import Mathlib

/-!
# Session layer of the QSanguosha server (`src/server/server.cpp`)

A shallow embedding of `Server::broadcast`, `Server::cleanup`, `Server::notifyClient`,
`Server::processNewConnection`, `Server::processMessage` and `Server::processClientSignup`.

* The fields of `Server` become the record `Server`; every member function becomes a function
  from the state before the call to the state after it together with the list of calls it made
  on its collaborators (sockets, rooms, lobby players) and the signals it emitted, in program
  order (`Effect`).
* A pointer to a room is an index into `Server.roomHeap`; following a pointer that designates no
  object, or calling a method through the null pointer, is a `Fault`.
* Qt signal connections made with `connect` and undone with `disconnect` are the two lists
  `Server.messageGot` and `Server.disconnected`.
* `Room`, `Server::createNewRoom`, the packet decoder and the room and lobby packet handlers
  are declared outside `server.cpp`. Rooms are modelled from the specification (capacity,
  members, finished flag); `Room::signup`, `Room::reconnect` and `Room::broadcast` are recorded
  as calls only, what a room does inside them is out of scope. The decoder, the two handlers
  and the protocol constants are parameters (`Env`).
-/

namespace QSanguosha

/-! ## Protocol values -/

/-- Result of `Packet::getPacketSource()`, the scrutinee of the `switch` in `processMessage`. -/
inductive PacketSource
  | S_SRC_ROOM
  | S_SRC_LOBBY
  | S_SRC_CLIENT
  | unknown (tag : Nat)
  deriving DecidableEq

/-- Packet type part of a packet description. -/
inductive PacketType
  | S_TYPE_REQUEST
  | S_TYPE_REPLY
  | S_TYPE_NOTIFICATION
  | unknown
  deriving DecidableEq

/-- Command types used by the session layer; `other` stands for every remaining command. -/
inductive CommandType
  | S_COMMAND_SIGNUP
  | S_COMMAND_CHECK_VERSION
  | S_COMMAND_ENTER_LOBBY
  | S_COMMAND_ROOM_LIST
  | S_COMMAND_WARN
  | S_COMMAND_SPEAK
  | other (code : Nat)
  deriving DecidableEq

/-- A `QVariant` as the server sees it. `other` is any variant of a type not listed (a double, a
map, a nested list), given by what `toBool()` and `toString()` return on it. -/
inductive QVariant
  | invalid
  | bool (b : Bool)
  | int (n : Int)
  | string (s : String)
  | other (asBool : Bool) (asString : String)
  deriving DecidableEq

/-- The conversion `QVariant::toBool()`. -/
def QVariant.toBool : QVariant → Bool
  | .invalid => false
  | .bool b => b
  | .int n => n != 0
  | .string s =>
      let str := String.mk (s.data.map Char.toLower)
      !(str == "0" || str == "false" || str == "")
  | .other b _ => b

/-- The conversion `QVariant::toString()`. -/
def QVariant.toString : QVariant → String
  | .invalid => ""
  | .bool b => if b then "true" else "false"
  | .int n => ToString.toString n
  | .string s => s
  | .other _ t => t

abbrev JsonArray := List QVariant

/-- Body of a packet: a single variant or a list of variants. -/
inductive MessageBody
  | value (v : QVariant)
  | array (fields : JsonArray)
  deriving DecidableEq

/-- The conversion `value<JsonArray>()`: a body that is not a list converts to the empty list. -/
def MessageBody.toJsonArray : MessageBody → JsonArray
  | .array fields => fields
  | .value _ => []

/-- A decoded packet. `destination` is the result of `getPacketDestination()`, a bit mask. -/
structure Packet where
  source : PacketSource
  type : PacketType
  destination : Nat
  command : CommandType
  body : MessageBody
  deriving DecidableEq

abbrev QByteArray := List Nat

/-! ## Objects the server points to -/

abbrev RoomId := Nat

/-- An `AbstractClientSocket`; `id` is the identity of the object. -/
structure Socket where
  id : Nat
  peerAddress : String
  peerName : String
  deriving DecidableEq

/-- What `processClientSignup` reads of a `ServerPlayer`: `getState()` and `getRoom()`. -/
structure ServerPlayer where
  state : String
  room : Option RoomId
  deriving DecidableEq

/-- Modelled from the spec: the class `Room` is not part of `server.cpp`. A room has a
capacity, a member set (one entry per session added with `addSocket`) and a finished flag. -/
structure Room where
  capacity : Nat
  members : List Socket
  finished : Bool
  deriving DecidableEq

/-- Modelled from the spec: `Room::isFull()`, true exactly when the member count has reached
the capacity. -/
def Room.isFull (r : Room) : Bool := decide (r.capacity ≤ r.members.length)

/-- Modelled from the spec: `Room::isFinished()`, the finished flag. -/
def Room.isFinished (r : Room) : Bool := r.finished

/-- A `LobbyPlayer` after `setSocket`, `setScreenName` and `setAvatar`. -/
structure LobbyPlayer where
  socket : Socket
  screenName : String
  avatar : String
  deriving DecidableEq

/-- The `ServerPlayer` returned by `Room::addSocket`: the member in position `slot` of `room`. -/
structure PlayerRef where
  room : RoomId
  slot : Nat
  deriving DecidableEq

inductive Role
  | LobbyRole
  | RoomRole
  deriving DecidableEq

/-- Texts passed to the signal `serverMessage`, one constructor per `tr(...)` format. -/
inductive ServerMessage
  | forbidAddress (address : String)
  | connected (peerName : String)
  | invalidMessage (peerName : String) (message : QByteArray)
  | unknownSource (peerName : String) (message : QByteArray)
  | invalidSignup (peerName : String) (signup : Packet)
  | loggedIn (peerName : String) (screen_name : String)
  deriving DecidableEq

/-- Calls made on collaborators and signals emitted, in program order. Where the source sends
`packet.toJson()` the packet itself is recorded. -/
inductive Effect
  | serverMessage (msg : ServerMessage)
  | send (socket : Socket) (packet : Packet)
  | disconnectFromHost (socket : Socket)
  | deleteLater (socket : Socket)
  | unicast (player : LobbyPlayer) (packet : Packet)
  | roomBroadcast (room : RoomId) (packet : Packet)
  | reconnect (room : RoomId) (objname : String) (socket : Socket)
  | createNewRoom (room : RoomId)
  | addSocket (room : RoomId) (socket : Socket)
  | signup (room : RoomId) (player : PlayerRef) (screen_name : String) (avatar : String)
      (is_robot : Bool)
  | newPlayer (player : PlayerRef)
  | newLobbyPlayer (player : LobbyPlayer)
  | connectErrorMessage (player : LobbyPlayer)
  | connectDisconnected (player : LobbyPlayer)
  | notifyRoomList (player : LobbyPlayer)
  deriving DecidableEq

/-- Undefined behaviour the embedding makes explicit. -/
inductive Fault
  | nullPlayer
  | danglingRoom
  deriving DecidableEq

/-- The data members of `Server` that the embedded functions read or write. -/
structure Server where
  role : Role
  current : Option RoomId
  lobby : Option Socket
  roomHeap : List Room
  rooms : List RoomId
  players : List (String × ServerPlayer)
  name2objname : List (String × String)
  lobbyPlayers : List LobbyPlayer
  remoteRoomId : List (Socket × Nat)
  addresses : List String
  messageGot : List Socket
  disconnected : List Socket
  deriving DecidableEq

/-- Outcome of a member function. -/
inductive Result
  | ok (server : Server) (effects : List Effect)
  | fault (f : Fault)
  deriving DecidableEq

/-- The global `Config`. `PlayerCount` is the capacity a room built from the active
configuration gets. -/
structure Settings where
  ForbidSIMC : Bool
  BannedIp : List String
  RoomPassword : String
  PlayerCount : Nat
  deriving DecidableEq

/-- Constants and collaborators declared outside `server.cpp`, taken as parameters. -/
structure Env where
  Config : Settings
  S_DEST_ROOM : Nat
  S_DEST_CLIENT : Nat
  S_WARNING_INVALID_SIGNUP_STRING : QVariant
  S_WARNING_WRONG_PASSWORD : QVariant
  version : QVariant
  parse : QByteArray → Option Packet
  processRoomPacket : Server → Socket → Packet → Result
  processLobbyPacket : Server → Packet → Result

/-! ## Containers -/

/-- The lookup `QHash::value(key)`: the null pointer when the key is absent. -/
def hashValue (table : List (String × ServerPlayer)) (key : String) : Option ServerPlayer :=
  table.lookup key

/-- The lookup `QMultiHash::values(key)`: every value stored under the key, in lookup order. -/
def multiValues (table : List (String × String)) (key : String) : List String :=
  (table.filter (fun e => e.1 == key)).map Prod.snd

/-- The update `QSet::insert`. -/
def setInsert (set : List String) (x : String) : List String :=
  if x ∈ set then set else x :: set

/-- The update `QSet::remove`. -/
def setRemove (set : List String) (x : String) : List String :=
  set.filter (fun y => y != x)

/-! ## `Server::notifyClient` and `Server::broadcast` -/

/-- Embedding of `Server::notifyClient` (lines 134-139). -/
def notifyClient (E : Env) (socket : Socket) (command : CommandType) (arg : QVariant) : Effect :=
  .send socket
    { source := .S_SRC_LOBBY, type := .S_TYPE_NOTIFICATION, destination := E.S_DEST_CLIENT,
      command := command, body := .value arg }

/-- Embedding of `Server::broadcast` (lines 105-124). -/
def broadcast (E : Env) (s : Server) (packet : Packet) : List Effect :=
  let destination := packet.destination
  (if destination &&& E.S_DEST_CLIENT ≠ 0 then
      s.lobbyPlayers.map (fun player => Effect.unicast player packet)
    else [])
  ++
  (if destination &&& E.S_DEST_ROOM ≠ 0 then
      s.remoteRoomId.map (fun entry => Effect.send entry.1 packet)
        ++ s.rooms.map (fun room => Effect.roomBroadcast room packet)
    else [])

/-! ## `Server::cleanup` and `Server::processNewConnection` -/

/-- Embedding of `Server::cleanup` (lines 126-132); `socket` is `sender()`. -/
def cleanup (E : Env) (s : Server) (socket : Socket) : Server × List Effect :=
  let s1 :=
    if E.Config.ForbidSIMC then { s with addresses := setRemove s.addresses socket.peerAddress }
    else s
  (s1, [.deleteLater socket])

/-- Embedding of `Server::processNewConnection` (lines 141-165). -/
def processNewConnection (E : Env) (s : Server) (socket : Socket) : Server × List Effect :=
  let address := socket.peerAddress
  if E.Config.ForbidSIMC ∧ address ∈ s.addresses then
    (s, [.disconnectFromHost socket, .serverMessage (.forbidAddress address)])
  else
    let s1 :=
      if E.Config.ForbidSIMC then { s with addresses := setInsert s.addresses address } else s
    if address ∈ E.Config.BannedIp then
      (s1, [.disconnectFromHost socket, .serverMessage (.forbidAddress address)])
    else
      ({ s1 with disconnected := socket :: s1.disconnected, messageGot := socket :: s1.messageGot },
       [notifyClient E socket .S_COMMAND_CHECK_VERSION E.version,
        .serverMessage (.connected socket.peerName)])

/-! ## `Server::processClientSignup` -/

/-- Modelled from the spec: `Server::createNewRoom` is declared outside `server.cpp`. It
constructs a new, empty, unfinished room from the active configuration, enters it in the room
directory and returns it. -/
def createNewRoom (E : Env) (s : Server) : Server × RoomId :=
  let room := s.roomHeap.length
  ({ s with
      roomHeap := s.roomHeap
        ++ [{ capacity := E.Config.PlayerCount, members := [], finished := false }],
      rooms := s.rooms ++ [room] },
   room)

/-- Modelled from the spec: `Room::addSocket` adds a new player for the session to the room and
returns it. -/
def addSocket (s : Server) (room : RoomId) (socket : Socket) : Option (Server × PlayerRef) :=
  match s.roomHeap[room]? with
  | none => none
  | some r =>
      some ({ s with roomHeap := s.roomHeap.set room { r with members := r.members ++ [socket] } },
            { room := room, slot := r.members.length })

/-- The reconnection loop of `processClientSignup` (lines 216-223) over the candidates still to
visit: the room and identifier `reconnect` is called with, `none` when the loop runs to its end. -/
def findReconnection (s : Server) : List String → Except Fault (Option (RoomId × String))
  | [] => .ok none
  | objname :: rest =>
      match hashValue s.players objname with
      | none => .error .nullPlayer
      | some player =>
          let room := player.room
          if player.state = "offline" then
            match room with
            | none => findReconnection s rest
            | some r =>
                match s.roomHeap[r]? with
                | none => .error .danglingRoom
                | some roomObj =>
                    if !roomObj.isFinished then .ok (some (r, objname))
                    else findReconnection s rest
          else findReconnection s rest

/-- Lines 236-237 of `processClientSignup`: keep the current room unless it is absent, full or
finished, in which case a new room is created and made current. Returns the state, the room
that is current afterwards and the calls made. -/
def selectOrCreateRoom (E : Env) (s : Server) : Except Fault (Server × RoomId × List Effect) :=
  let create : Server × RoomId × List Effect :=
    let created := createNewRoom E s
    ({ created.1 with current := some created.2 }, created.2, [.createNewRoom created.2])
  match s.current with
  | none => .ok create
  | some cur =>
      match s.roomHeap[cur]? with
      | none => .error .danglingRoom
      | some r => if r.isFull || r.isFinished then .ok create else .ok (s, cur, [])

/-- Lines 235-243 of `processClientSignup`: the region guarded by `currentRoomMutex`, followed
by the `newPlayer` signal. -/
def currentRoomSection (E : Env) (s : Server) (socket : Socket) (screen_name avatar : String) :
    Result :=
  match selectOrCreateRoom E s with
  | .error f => .fault f
  | .ok (s1, cur, created) =>
      match addSocket s1 cur socket with
      | none => .fault .danglingRoom
      | some (s2, player) =>
          .ok s2 (created ++ [.addSocket cur socket,
                              .signup cur player screen_name avatar false,
                              .newPlayer player])

/-- Line 228 of `processClientSignup`: the password a signup body supplies, its 4th field, the
empty string when there is none. -/
def suppliedPassword (body : JsonArray) : String :=
  if body.length < 4 then "" else (body.getD 3 .invalid).toString

/-- Lines 226-261 of `processClientSignup`: fresh signup after the reconnection branch. -/
def freshSignup (E : Env) (s : Server) (socket : Socket) (body : JsonArray)
    (screen_name avatar : String) : Result :=
  if s.role = .RoomRole then
    let password := suppliedPassword body
    if E.Config.RoomPassword ≠ "" ∧ password ≠ E.Config.RoomPassword then
      .ok s [notifyClient E socket .S_COMMAND_WARN E.S_WARNING_WRONG_PASSWORD]
    else
      currentRoomSection E s socket screen_name avatar
  else
    let player : LobbyPlayer := { socket := socket, screenName := screen_name, avatar := avatar }
    .ok { s with lobbyPlayers := s.lobbyPlayers ++ [player] }
      [notifyClient E socket .S_COMMAND_ENTER_LOBBY .invalid,
       .connectErrorMessage player,
       .connectDisconnected player,
       .newLobbyPlayer player,
       .serverMessage (.loggedIn socket.peerName screen_name),
       .notifyRoomList player]

/-- The state after `disconnect(socket, messageGot, this, processMessage)` (line 197). -/
def detachMessageHook (s : Server) (socket : Socket) : Server :=
  { s with messageGot := s.messageGot.filter (fun x => x ≠ socket) }

/-- Embedding of `Server::processClientSignup` (lines 195-262). -/
def processClientSignup (E : Env) (s : Server) (socket : Socket) (signup : Packet) : Result :=
  let s0 := detachMessageHook s socket
  if signup.command ≠ .S_COMMAND_SIGNUP then
    .ok s0 [.serverMessage (.invalidSignup socket.peerName signup),
            notifyClient E socket .S_COMMAND_WARN E.S_WARNING_INVALID_SIGNUP_STRING,
            .disconnectFromHost socket]
  else
    let body := signup.body.toJsonArray
    if body.length < 3 then .ok s0 []
    else
      let is_reconnection := (body.getD 0 .invalid).toBool
      let screen_name := (body.getD 1 .invalid).toString
      let avatar := (body.getD 2 .invalid).toString
      if screen_name = "" ∨ avatar = "" then .ok s0 []
      else
        let found : Except Fault (Option (RoomId × String)) :=
          if is_reconnection then findReconnection s0 (multiValues s0.name2objname screen_name)
          else .ok none
        match found with
        | .error f => .fault f
        | .ok (some (room, objname)) => .ok s0 [.reconnect room objname socket]
        | .ok none => freshSignup E s0 socket body screen_name avatar

/-! ## `Server::processMessage` -/

/-- Embedding of `Server::processMessage` (lines 167-193); `socket` is the result of the cast of
`sender()`, `none` for the null pointer. -/
def processMessage (E : Env) (s : Server) (socket : Option Socket) (message : QByteArray) :
    Result :=
  match socket with
  | none => .ok s []
  | some socket =>
      match E.parse message with
      | none => .ok s [.serverMessage (.invalidMessage socket.peerName message)]
      | some packet =>
          match packet.source with
          | .S_SRC_CLIENT => processClientSignup E s socket packet
          | .S_SRC_ROOM => E.processRoomPacket s socket packet
          | .S_SRC_LOBBY =>
              if some socket = s.lobby then E.processLobbyPacket s packet else .ok s []
          | .unknown _ => .ok s [.serverMessage (.unknownSource socket.peerName message)]

/-! ## Runs of several events -/

/-- Puts `effects` before the effects of an outcome. -/
def Result.prepend (effects : List Effect) : Result → Result
  | .ok s later => .ok s (effects ++ later)
  | .fault f => .fault f

/-- Delivery of one message on a session: Qt calls `processMessage` only while the connection
made on line 164 exists, with the session as `sender()`. -/
def deliver (E : Env) (s : Server) (socket : Socket) (message : QByteArray) : Result :=
  if socket ∈ s.messageGot then processMessage E s (some socket) message else .ok s []

/-- Delivery of the messages of one session in arrival order. -/
def deliverAll (E : Env) (socket : Socket) : Server → List QByteArray → Result
  | s, [] => .ok s []
  | s, message :: rest =>
      match deliver E s socket message with
      | .fault f => .fault f
      | .ok s1 effects => (deliverAll E socket s1 rest).prepend effects

/-- One room-mode signup that has reached the guarded region: session, screen name, avatar. -/
structure Attempt where
  socket : Socket
  screen_name : String
  avatar : String
  deriving DecidableEq

/-- A serialised order of guarded regions: each runs to its end before the next starts. -/
def raceSignups (E : Env) : Server → List Attempt → Result
  | s, [] => .ok s []
  | s, a :: rest =>
      match currentRoomSection E s a.socket a.screen_name a.avatar with
      | .fault f => .fault f
      | .ok s1 effects => (raceSignups E s1 rest).prepend effects

/-- Number of rooms created in a list of effects. -/
def roomsCreated (effects : List Effect) : Nat :=
  effects.countP (fun e => match e with | .createNewRoom _ => true | _ => false)

/-- Number of players created in rooms (calls of `addSocket`) in a list of effects. -/
def playersCreated (effects : List Effect) : Nat :=
  effects.countP (fun e => match e with | .addSocket _ _ => true | _ => false)

/-- Number of `newPlayer` signals in a list of effects. -/
def newPlayerEvents (effects : List Effect) : Nat :=
  effects.countP (fun e => match e with | .newPlayer _ => true | .newLobbyPlayer _ => true | _ => false)

/-- Number of sessions closed (`disconnectFromHost`) in a list of effects. -/
def sessionsClosed (effects : List Effect) : Nat :=
  effects.countP (fun e => match e with | .disconnectFromHost _ => true | _ => false)

/-- The rooms `addSocket` was called on, in order. -/
def addSocketRooms (effects : List Effect) : List RoomId :=
  effects.filterMap (fun e => match e with | .addSocket room _ => some room | _ => none)

/-- The rooms `signup` was called on, in order. -/
def signupRooms (effects : List Effect) : List RoomId :=
  effects.filterMap (fun e => match e with | .signup room _ _ _ _ => some room | _ => none)

/-- The lobby players `unicast` was called on, in order. -/
def unicastTargets (effects : List Effect) : List LobbyPlayer :=
  effects.filterMap (fun e => match e with | .unicast player _ => some player | _ => none)

/-- The sockets `send` was called on, in order. -/
def sendTargets (effects : List Effect) : List Socket :=
  effects.filterMap (fun e => match e with | .send socket _ => some socket | _ => none)

/-- The rooms `broadcast` was called on, in order. -/
def roomBroadcastTargets (effects : List Effect) : List RoomId :=
  effects.filterMap (fun e => match e with | .roomBroadcast room _ => some room | _ => none)

/-- The current room pointer is null or designates a room object. -/
def currentValid (s : Server) : Prop :=
  ∀ cur, s.current = some cur → cur < s.roomHeap.length

/-- A current room exists and it is neither full nor finished. -/
def currentOpen (s : Server) : Bool :=
  match s.current with
  | none => false
  | some cur =>
      match s.roomHeap[cur]? with
      | none => false
      | some r => !r.isFull && !r.isFinished

/-- Every identifier the presence index stores under the screen name is a key of the player
table. -/
def indexConsistent (s : Server) (screen_name : String) : Prop :=
  ∀ objname ∈ multiValues s.name2objname screen_name, (hashValue s.players objname).isSome = true

/-! ## The connection gateway as a transition system -/

/-- The server together with the sessions that are open. -/
structure Gateway where
  server : Server
  live : List Socket
  deriving DecidableEq

inductive GatewayEvent
  | accept (socket : Socket)
  | close (socket : Socket)
  deriving DecidableEq

/-- One gateway event. An accepted session is open afterwards unless `processNewConnection`
called `disconnectFromHost` on it. A close event is the signal `disconnected` of a session
`cleanup` is connected to: `cleanup` runs, the session is no longer open and, once deleted,
its connections are gone. Closing a session `cleanup` is not connected to runs no code. -/
def gatewayStep (E : Env) (g : Gateway) : GatewayEvent → Gateway
  | .accept socket =>
      let r := processNewConnection E g.server socket
      { server := r.1,
        live := if Effect.disconnectFromHost socket ∈ r.2 then g.live else socket :: g.live }
  | .close socket =>
      if socket ∈ g.server.disconnected then
        let r := cleanup E g.server socket
        { server := { r.1 with disconnected := r.1.disconnected.filter (fun x => x ≠ socket),
                               messageGot := r.1.messageGot.filter (fun x => x ≠ socket) },
          live := g.live.filter (fun x => x ≠ socket) }
      else g

/-- A finite sequence of gateway events. -/
def gatewayRun (E : Env) (g : Gateway) (events : List GatewayEvent) : Gateway :=
  events.foldl (gatewayStep E) g

/-- A server with no room, no player, no session and an empty address set. -/
def emptyServer (role : Role) : Server :=
  { role := role, current := none, lobby := none, roomHeap := [], rooms := [], players := [],
    name2objname := [], lobbyPlayers := [], remoteRoomId := [], addresses := [],
    messageGot := [], disconnected := [] }

/-! ## Concrete data -/

/-- A signup packet from a client with the given body. -/
def signupPacket (body : JsonArray) : Packet :=
  { source := .S_SRC_CLIENT, type := .S_TYPE_REQUEST, destination := 0,
    command := .S_COMMAND_SIGNUP, body := .array body }

/-- A sample environment: destination bits `0x100` and `0x400`, a decoder that knows three
messages, handlers that do nothing. -/
def sampleEnv (settings : Settings) : Env :=
  { Config := settings,
    S_DEST_ROOM := 0x100,
    S_DEST_CLIENT := 0x400,
    S_WARNING_INVALID_SIGNUP_STRING := .string "INVALID_SIGNUP_STRING",
    S_WARNING_WRONG_PASSWORD := .string "WRONG_PASSWORD",
    version := .string "2.0",
    parse := fun message =>
      match message with
      | [1] => some (signupPacket [.bool false, .string "Alice", .string "avatar1"])
      | [2] => some { source := .S_SRC_LOBBY, type := .S_TYPE_NOTIFICATION, destination := 0x400,
                      command := .S_COMMAND_SPEAK, body := .value (.string "hi") }
      | [3] => some { source := .unknown 0, type := .unknown, destination := 0,
                      command := .other 0, body := .value .invalid }
      | _ => none,
    processRoomPacket := fun s _ _ => .ok s [],
    processLobbyPacket := fun s _ => .ok s [] }

def noPassword : Settings :=
  { ForbidSIMC := true, BannedIp := ["10.0.0.9"], RoomPassword := "", PlayerCount := 2 }

def withPassword : Settings :=
  { ForbidSIMC := true, BannedIp := ["10.0.0.9"], RoomPassword := "secret", PlayerCount := 2 }

def alice : Socket := { id := 1, peerAddress := "10.0.0.1", peerName := "alice-pc" }

def bob : Socket := { id := 2, peerAddress := "10.0.0.2", peerName := "bob-pc" }

def carol : Socket := { id := 3, peerAddress := "10.0.0.3", peerName := "carol-pc" }

def mallory : Socket := { id := 4, peerAddress := "10.0.0.9", peerName := "mallory-pc" }

/-- A room server whose presence index lists two identifiers under the screen name Alice: the
first has no entry in the player table, the second is an offline player of the unfinished
room 0. -/
def staleIndexServer : Server :=
  { emptyServer .RoomRole with
    roomHeap := [{ capacity := 2, members := [bob, carol], finished := false }],
    rooms := [0],
    current := some 0,
    players := [("sgs1", { state := "offline", room := some 0 })],
    name2objname := [("Alice", "sgs7"), ("Alice", "sgs1")] }

/-- The same server with a presence index that only lists the player that exists. -/
def cleanIndexServer : Server :=
  { staleIndexServer with name2objname := [("Alice", "sgs1")] }

/-- State of a race after its first signup: the current room was created during the race
(rooms from index `base` on), has the configured capacity, is not finished and holds `m`
members with `1 ≤ m ≤ capacity`; no room created during the race holds more members than its
capacity. -/
def RaceInvariant (E : Env) (base : Nat) (s : Server) (m : Nat) : Prop :=
  ∃ cur r, s.current = some cur ∧ base ≤ cur ∧ s.roomHeap[cur]? = some r
    ∧ r.capacity = E.Config.PlayerCount ∧ r.finished = false ∧ r.members.length = m
    ∧ 1 ≤ m ∧ m ≤ E.Config.PlayerCount
    ∧ ∀ room r', base ≤ room → s.roomHeap[room]? = some r' → r'.members.length ≤ r'.capacity

/-- Invariant of the gateway while no banned address connects: `cleanup` is connected to
exactly the open sessions, the Address Set lists exactly their addresses, once each. -/
def GatewayInvariant (g : Gateway) : Prop :=
  g.server.disconnected = g.live
    ∧ g.server.addresses = g.live.map (fun socket => socket.peerAddress)
    ∧ (g.live.map (fun socket => socket.peerAddress)).Nodup

/-- The room of a reconnection candidate that qualifies: the candidate has a player, in state
"offline", whose owning room exists and is not finished. -/
def eligibleRoom (s : Server) (objname : String) : Option RoomId :=
  match hashValue s.players objname with
  | none => none
  | some player =>
      if player.state = "offline" then
        match player.room with
        | none => none
        | some r =>
            match s.roomHeap[r]? with
            | none => none
            | some roomObj => if roomObj.isFinished then none else some r
      else none

/-- The first candidate in lookup order that qualifies, with its room. -/
def firstEligible (s : Server) : List String → Option (RoomId × String)
  | [] => none
  | objname :: rest =>
      match eligibleRoom s objname with
      | some r => some (r, objname)
      | none => firstEligible s rest

/-- Every candidate has a player, and the room of that player, if any, is a room object. -/
def candidatesSound (s : Server) (candidates : List String) : Prop :=
  ∀ objname ∈ candidates, ∃ player, hashValue s.players objname = some player
    ∧ ∀ r, player.room = some r → r < s.roomHeap.length

/-! ## Theorems -/

/-- C9: a signup packet whose body has fewer than 3 fields, or whose screen name or avatar is
empty, only detaches the message hook of the session: the outcome is the state with that hook
removed and no call or signal at all, so no player and no room is created, no room, presence
index or lobby roster changes, nothing is sent and the session is not closed. -/
theorem processClientSignup_incomplete_is_silent (E : Env) (s : Server) (socket : Socket)
    (signup : Packet)
    (hcmd : signup.command = .S_COMMAND_SIGNUP)
    (hbad : signup.body.toJsonArray.length < 3
      ∨ (signup.body.toJsonArray.getD 1 .invalid).toString = ""
      ∨ (signup.body.toJsonArray.getD 2 .invalid).toString = "") :
    processClientSignup E s socket signup = .ok (detachMessageHook s socket) []
    ∧ (detachMessageHook s socket).messageGot = s.messageGot.filter (fun x => x ≠ socket)
    ∧ (detachMessageHook s socket).current = s.current
    ∧ (detachMessageHook s socket).roomHeap = s.roomHeap
    ∧ (detachMessageHook s socket).rooms = s.rooms
    ∧ (detachMessageHook s socket).players = s.players
    ∧ (detachMessageHook s socket).name2objname = s.name2objname
    ∧ (detachMessageHook s socket).lobbyPlayers = s.lobbyPlayers
    ∧ (detachMessageHook s socket).addresses = s.addresses
    ∧ (detachMessageHook s socket).disconnected = s.disconnected := by
  refine ⟨?_, rfl, rfl, rfl, rfl, rfl, rfl, rfl, rfl, rfl⟩
  unfold processClientSignup
  simp only [hcmd, ne_eq, not_true_eq_false, if_false]
  by_cases hlen : signup.body.toJsonArray.length < 3
  · simp [hlen]
  · rcases hbad with h | h | h
    · exact absurd h hlen
    · simp only [List.getD_eq_getElem?_getD] at h
      simp [hlen, h]
    · simp only [List.getD_eq_getElem?_getD] at h
      simp [hlen, h]

/-- Witness of C9: the body `[false, "Alice"]` has two fields. -/
theorem processClientSignup_incomplete_is_silent_witness :
    processClientSignup (sampleEnv noPassword) (emptyServer .RoomRole) alice
        (signupPacket [.bool false, .string "Alice"])
      = .ok (detachMessageHook (emptyServer .RoomRole) alice) [] :=
  (processClientSignup_incomplete_is_silent (sampleEnv noPassword) (emptyServer .RoomRole) alice
    (signupPacket [.bool false, .string "Alice"]) rfl (Or.inl (by decide))).1

/-- C7: a message that decodes is routed by the source tag of its packet alone. CLIENT gives
exactly the outcome of the signup handler on (session, packet), ROOM that of the room-packet
handler on (session, packet), LOBBY that of the lobby-packet handler when the session is the
lobby connection and otherwise no call, no signal and no state change, and any other source
no state change and exactly one diagnostic signal. In no case does the router add a call of its
own, so it never closes the session itself. -/
theorem processMessage_dispatch (E : Env) (s : Server) (socket : Socket) (message : QByteArray)
    (packet : Packet) (hparse : E.parse message = some packet) :
    (packet.source = .S_SRC_CLIENT →
        processMessage E s (some socket) message = processClientSignup E s socket packet)
    ∧ (packet.source = .S_SRC_ROOM →
        processMessage E s (some socket) message = E.processRoomPacket s socket packet)
    ∧ (packet.source = .S_SRC_LOBBY → some socket = s.lobby →
        processMessage E s (some socket) message = E.processLobbyPacket s packet)
    ∧ (packet.source = .S_SRC_LOBBY → some socket ≠ s.lobby →
        processMessage E s (some socket) message = .ok s [])
    ∧ (∀ tag, packet.source = .unknown tag →
        processMessage E s (some socket) message
          = .ok s [.serverMessage (.unknownSource socket.peerName message)])
    ∧ (packet.source = .S_SRC_CLIENT ∨ packet.source = .S_SRC_ROOM
        ∨ packet.source = .S_SRC_LOBBY ∨ ∃ tag, packet.source = .unknown tag) := by
  refine ⟨?_, ?_, ?_, ?_, ?_, ?_⟩
  · intro h; simp [processMessage, hparse, h]
  · intro h; simp [processMessage, hparse, h]
  · intro h hl; simp [processMessage, hparse, h, hl]
  · intro h hl; simp [processMessage, hparse, h, hl]
  · intro tag h; simp [processMessage, hparse, h]
  · cases packet.source with
    | S_SRC_ROOM => simp
    | S_SRC_LOBBY => simp
    | S_SRC_CLIENT => simp
    | unknown tag => simp

/-- Witness of C7: the sample decoder maps the message `[3]` to a packet of unknown source. -/
theorem processMessage_dispatch_witness :
    processMessage (sampleEnv noPassword) (emptyServer .RoomRole) (some alice) [3]
      = .ok (emptyServer .RoomRole) [.serverMessage (.unknownSource alice.peerName [3])] :=
  (processMessage_dispatch (sampleEnv noPassword) (emptyServer .RoomRole) alice [3]
    { source := .unknown 0, type := .unknown, destination := 0, command := .other 0,
      body := .value .invalid } rfl).2.2.2.2.1 0 rfl

/-- C8: a byte sequence that fails to decode, delivered on a session whose message hook is
attached, yields exactly one diagnostic signal and nothing else: no handler runs, nothing is
sent, the session is not closed, the server state (the message hook included) is unchanged.
Hence any message delivered afterwards on the session has exactly the outcome it has without
the malformed one, the diagnostic apart. -/
theorem processMessage_malformed_nonfatal (E : Env) (s : Server) (socket : Socket)
    (bad : QByteArray) (hhook : socket ∈ s.messageGot) (hbad : E.parse bad = none) :
    processMessage E s (some socket) bad
        = .ok s [.serverMessage (.invalidMessage socket.peerName bad)]
    ∧ deliver E s socket bad = .ok s [.serverMessage (.invalidMessage socket.peerName bad)]
    ∧ ∀ later : QByteArray,
        deliverAll E socket s [bad, later]
          = (deliverAll E socket s [later]).prepend
              [.serverMessage (.invalidMessage socket.peerName bad)] := by
  have h1 : processMessage E s (some socket) bad
      = .ok s [.serverMessage (.invalidMessage socket.peerName bad)] := by
    simp [processMessage, hbad]
  have h2 : deliver E s socket bad
      = .ok s [.serverMessage (.invalidMessage socket.peerName bad)] := by
    simp [deliver, hhook, h1]
  refine ⟨h1, h2, ?_⟩
  intro later
  simp [deliverAll, h2]

/-- Witness of C8: the sample decoder rejects the message `[9]`. -/
theorem processMessage_malformed_nonfatal_witness :
    deliverAll (sampleEnv noPassword) alice { emptyServer .RoomRole with messageGot := [alice] }
        [[9], [1]]
      = (deliverAll (sampleEnv noPassword) alice
          { emptyServer .RoomRole with messageGot := [alice] } [[1]]).prepend
          [.serverMessage (.invalidMessage alice.peerName [9])] :=
  (processMessage_malformed_nonfatal (sampleEnv noPassword)
    { emptyServer .RoomRole with messageGot := [alice] } alice [9] (by decide) rfl).2.2 [1]

/-- C6: fan-out of `broadcast`. The lobby players that get a `unicast` are exactly the roster,
each entry once and in order, when the lobby-client bit of the destination is set, and nobody
otherwise; the sockets that get a `send` are exactly the keys of `remoteRoomId` and the rooms
asked to broadcast are exactly the room list, each entry once, when the room bit is set, and
none otherwise; every such call carries the packet. When the two bits are distinct non-zero
bits, destination = lobby bit reaches the roster only and destination = room bit reaches the
bridged sessions and the rooms only. -/
theorem broadcast_fanout (E : Env) (s : Server) (packet : Packet) :
    unicastTargets (broadcast E s packet)
        = (if packet.destination &&& E.S_DEST_CLIENT ≠ 0 then s.lobbyPlayers else [])
    ∧ sendTargets (broadcast E s packet)
        = (if packet.destination &&& E.S_DEST_ROOM ≠ 0 then s.remoteRoomId.map Prod.fst else [])
    ∧ roomBroadcastTargets (broadcast E s packet)
        = (if packet.destination &&& E.S_DEST_ROOM ≠ 0 then s.rooms else [])
    ∧ (∀ e ∈ broadcast E s packet,
        (∃ player, e = .unicast player packet) ∨ (∃ socket, e = .send socket packet)
          ∨ (∃ room, e = .roomBroadcast room packet))
    ∧ (E.S_DEST_CLIENT ≠ 0 → E.S_DEST_CLIENT &&& E.S_DEST_ROOM = 0 →
        packet.destination = E.S_DEST_CLIENT →
        broadcast E s packet = s.lobbyPlayers.map (fun player => Effect.unicast player packet))
    ∧ (E.S_DEST_ROOM ≠ 0 → E.S_DEST_ROOM &&& E.S_DEST_CLIENT = 0 →
        packet.destination = E.S_DEST_ROOM →
        broadcast E s packet
          = s.remoteRoomId.map (fun entry => Effect.send entry.1 packet)
            ++ s.rooms.map (fun room => Effect.roomBroadcast room packet)) := by
  have hu : ∀ l : List LobbyPlayer,
      unicastTargets (l.map (fun player => Effect.unicast player packet)) = l := by
    intro l; induction l with
    | nil => rfl
    | cons a l ih => simp [unicastTargets, List.filterMap_cons] at ih ⊢; exact ih
  have hs : ∀ l : List (Socket × Nat),
      sendTargets (l.map (fun entry => Effect.send entry.1 packet)) = l.map Prod.fst := by
    intro l; induction l with
    | nil => rfl
    | cons a l ih => simp [sendTargets, List.filterMap_cons] at ih ⊢; exact ih
  have hr : ∀ l : List RoomId,
      roomBroadcastTargets (l.map (fun room => Effect.roomBroadcast room packet)) = l := by
    intro l; induction l with
    | nil => rfl
    | cons a l ih => simp [roomBroadcastTargets, List.filterMap_cons] at ih ⊢; exact ih
  have hu0 : ∀ l : List (Socket × Nat),
      unicastTargets (l.map (fun entry => Effect.send entry.1 packet)) = [] := by
    intro l; induction l with
    | nil => rfl
    | cons a l ih => simp [unicastTargets, List.filterMap_cons] at ih ⊢
  have hu1 : ∀ l : List RoomId,
      unicastTargets (l.map (fun room => Effect.roomBroadcast room packet)) = [] := by
    intro l; induction l with
    | nil => rfl
    | cons a l ih => simp [unicastTargets, List.filterMap_cons] at ih ⊢
  have hs0 : ∀ l : List LobbyPlayer,
      sendTargets (l.map (fun player => Effect.unicast player packet)) = [] := by
    intro l; induction l with
    | nil => rfl
    | cons a l ih => simp [sendTargets, List.filterMap_cons] at ih ⊢
  have hs1 : ∀ l : List RoomId,
      sendTargets (l.map (fun room => Effect.roomBroadcast room packet)) = [] := by
    intro l; induction l with
    | nil => rfl
    | cons a l ih => simp [sendTargets, List.filterMap_cons] at ih ⊢
  have hr0 : ∀ l : List LobbyPlayer,
      roomBroadcastTargets (l.map (fun player => Effect.unicast player packet)) = [] := by
    intro l; induction l with
    | nil => rfl
    | cons a l ih => simp [roomBroadcastTargets, List.filterMap_cons] at ih ⊢
  have hr1 : ∀ l : List (Socket × Nat),
      roomBroadcastTargets (l.map (fun entry => Effect.send entry.1 packet)) = [] := by
    intro l; induction l with
    | nil => rfl
    | cons a l ih => simp [roomBroadcastTargets, List.filterMap_cons] at ih ⊢
  have happ_u : ∀ a b : List Effect, unicastTargets (a ++ b) = unicastTargets a ++ unicastTargets b := by
    intro a b; simp [unicastTargets, List.filterMap_append]
  have happ_s : ∀ a b : List Effect, sendTargets (a ++ b) = sendTargets a ++ sendTargets b := by
    intro a b; simp [sendTargets, List.filterMap_append]
  have happ_r : ∀ a b : List Effect,
      roomBroadcastTargets (a ++ b) = roomBroadcastTargets a ++ roomBroadcastTargets b := by
    intro a b; simp [roomBroadcastTargets, List.filterMap_append]
  have hnil : unicastTargets [] = [] ∧ sendTargets [] = [] ∧ roomBroadcastTargets [] = [] :=
    ⟨rfl, rfl, rfl⟩
  refine ⟨?_, ?_, ?_, ?_, ?_, ?_⟩
  · unfold broadcast
    by_cases hc : packet.destination &&& E.S_DEST_CLIENT = 0 <;>
      by_cases hrm : packet.destination &&& E.S_DEST_ROOM = 0 <;>
      simp only [ne_eq, hc, hrm, not_true_eq_false, not_false_eq_true, if_true, if_false, happ_u, hu, hu0, hu1, List.append_nil, List.nil_append, hnil.1, hnil.2.1, hnil.2.2]
  · unfold broadcast
    by_cases hc : packet.destination &&& E.S_DEST_CLIENT = 0 <;>
      by_cases hrm : packet.destination &&& E.S_DEST_ROOM = 0 <;>
      simp only [ne_eq, hc, hrm, not_true_eq_false, not_false_eq_true, if_true, if_false, happ_s, hs, hs0, hs1, List.append_nil, List.nil_append, hnil.1, hnil.2.1, hnil.2.2]
  · unfold broadcast
    by_cases hc : packet.destination &&& E.S_DEST_CLIENT = 0 <;>
      by_cases hrm : packet.destination &&& E.S_DEST_ROOM = 0 <;>
      simp only [ne_eq, hc, hrm, not_true_eq_false, not_false_eq_true, if_true, if_false, happ_r, hr, hr0, hr1, List.append_nil, List.nil_append, hnil.1, hnil.2.1, hnil.2.2]
  · intro e he
    unfold broadcast at he
    simp only [List.mem_append] at he
    rcases he with he | he
    · split at he
      · obtain ⟨p, _, rfl⟩ := List.mem_map.1 he
        exact Or.inl ⟨p, rfl⟩
      · cases he
    · split at he
      · rcases List.mem_append.1 he with h | h
        · obtain ⟨p, _, rfl⟩ := List.mem_map.1 h
          exact Or.inr (Or.inl ⟨p.1, rfl⟩)
        · obtain ⟨p, _, rfl⟩ := List.mem_map.1 h
          exact Or.inr (Or.inr ⟨p, rfl⟩)
      · cases he
  · intro h0 hdis hd
    unfold broadcast
    simp [hd, Nat.and_self, h0, hdis]
  · intro h0 hdis hd
    unfold broadcast
    simp [hd, Nat.and_self, h0, hdis]

/-- Witness of C6: with the bits `0x400` and `0x100`, a packet whose destination is the lobby
bit reaches the two lobby players of the roster and nothing else. -/
theorem broadcast_fanout_witness :
    broadcast (sampleEnv noPassword)
        { emptyServer .LobbyRole with
          lobbyPlayers := [⟨alice, "Alice", "a1"⟩, ⟨bob, "Bob", "a2"⟩],
          remoteRoomId := [(carol, 7)], rooms := [0] }
        { source := .S_SRC_LOBBY, type := .S_TYPE_NOTIFICATION, destination := 0x400,
          command := .S_COMMAND_SPEAK, body := .value (.string "hi") }
      = [Effect.unicast ⟨alice, "Alice", "a1"⟩
            { source := .S_SRC_LOBBY, type := .S_TYPE_NOTIFICATION, destination := 0x400,
              command := .S_COMMAND_SPEAK, body := .value (.string "hi") },
         Effect.unicast ⟨bob, "Bob", "a2"⟩
            { source := .S_SRC_LOBBY, type := .S_TYPE_NOTIFICATION, destination := 0x400,
              command := .S_COMMAND_SPEAK, body := .value (.string "hi") }] :=
  (broadcast_fanout (sampleEnv noPassword)
    { emptyServer .LobbyRole with
      lobbyPlayers := [⟨alice, "Alice", "a1"⟩, ⟨bob, "Bob", "a2"⟩],
      remoteRoomId := [(carol, 7)], rooms := [0] }
    { source := .S_SRC_LOBBY, type := .S_TYPE_NOTIFICATION, destination := 0x400,
      command := .S_COMMAND_SPEAK, body := .value (.string "hi") }).2.2.2.2.1
    (by decide) (by decide) rfl

/-- The reconnection loop faults on a missing player only if some candidate has no entry in the
player table. -/
theorem findReconnection_ne_nullPlayer (s : Server) (candidates : List String)
    (h : ∀ objname ∈ candidates, (hashValue s.players objname).isSome = true) :
    findReconnection s candidates ≠ .error .nullPlayer := by
  induction candidates with
  | nil => simp [findReconnection]
  | cons objname rest ih =>
      have hrest : ∀ o ∈ rest, (hashValue s.players o).isSome = true :=
        fun o ho => h o (List.mem_cons_of_mem _ ho)
      have hhead := h objname (List.mem_cons_self _ _)
      unfold findReconnection
      cases hp : hashValue s.players objname with
      | none => simp [hp] at hhead
      | some player =>
          simp only
          split
          · cases hroom : player.room with
            | none => simpa using ih hrest
            | some r =>
                simp only
                cases hr : s.roomHeap[r]? with
                | none => simp
                | some roomObj =>
                    simp only
                    split
                    · simp
                    · exact ih hrest
          · exact ih hrest

/-- The room selection faults only on a dangling current room. -/
theorem selectOrCreateRoom_error (E : Env) (s : Server) (f : Fault)
    (h : selectOrCreateRoom E s = .error f) : f = .danglingRoom := by
  unfold selectOrCreateRoom at h
  cases hc : s.current with
  | none => simp [hc] at h
  | some cur =>
      simp only [hc] at h
      cases hr : s.roomHeap[cur]? with
      | none => simp only [hr] at h; injection h with h; exact h.symm
      | some r =>
          simp only [hr] at h
          split at h <;> cases h

/-- The guarded region never faults on a missing player. -/
theorem currentRoomSection_ne_nullPlayer (E : Env) (s : Server) (socket : Socket)
    (screen_name avatar : String) :
    currentRoomSection E s socket screen_name avatar ≠ .fault .nullPlayer := by
  unfold currentRoomSection
  cases hsel : selectOrCreateRoom E s with
  | error f => simp [selectOrCreateRoom_error E s f hsel]
  | ok v =>
      obtain ⟨s1, cur, created⟩ := v
      simp only
      cases hadd : addSocket s1 cur socket with
      | none => simp
      | some v2 => obtain ⟨s2, player⟩ := v2; simp

/-- A fresh signup never faults on a missing player. -/
theorem freshSignup_ne_nullPlayer (E : Env) (s : Server) (socket : Socket) (body : JsonArray)
    (screen_name avatar : String) :
    freshSignup E s socket body screen_name avatar ≠ .fault .nullPlayer := by
  unfold freshSignup
  split
  · simp only
    split
    · simp
    · exact currentRoomSection_ne_nullPlayer _ _ _ _ _
  · simp

/-- C10: when every identifier the presence index stores under the requested screen name is a
key of the player table, `processClientSignup` never calls a method through a missing (null)
player: the reconnection lookup of lines 215-224 cannot fault on `player->getRoom()`. -/
theorem processClientSignup_lookup_safe (E : Env) (s : Server) (socket : Socket)
    (signup : Packet)
    (hindex : indexConsistent s (signup.body.toJsonArray.getD 1 .invalid).toString) :
    processClientSignup E s socket signup ≠ .fault .nullPlayer := by
  have hloop : findReconnection (detachMessageHook s socket)
      (multiValues (detachMessageHook s socket).name2objname
        (signup.body.toJsonArray.getD 1 .invalid).toString) ≠ .error .nullPlayer :=
    findReconnection_ne_nullPlayer _ _ hindex
  unfold processClientSignup
  simp only
  split
  · simp
  · split
    · simp
    · split
      · simp
      · split
        · rename_i f hfound
          split at hfound
          · intro hf
            injection hf with hf
            rw [hf] at hfound
            exact hloop hfound
          · cases hfound
        · simp
        · exact freshSignup_ne_nullPlayer _ _ _ _ _ _

/-- Witness of C10: the presence index of `cleanIndexServer` lists under Alice only a player
that exists. -/
theorem processClientSignup_lookup_safe_witness :
    processClientSignup (sampleEnv noPassword) cleanIndexServer alice
        (signupPacket [.bool true, .string "Alice", .string "avatar1"]) ≠ .fault .nullPlayer :=
  processClientSignup_lookup_safe (sampleEnv noPassword) cleanIndexServer alice
    (signupPacket [.bool true, .string "Alice", .string "avatar1"])
    (by unfold indexConsistent; decide)

/-- C3, evaluated at a failing input. The presence index lists two identifiers under Alice;
the first has no entry in the player table, the second is an offline player of the unfinished
room 0. A reconnecting signup as Alice faults on the first identifier (the room is fetched
through the null player before the null test), so `reconnect` is never called for the second;
without the first identifier the same signup reconnects the second one. -/
theorem processClientSignup_stale_index_faults :
    processClientSignup (sampleEnv noPassword) staleIndexServer alice
        (signupPacket [.bool true, .string "Alice", .string "avatar1"]) = .fault .nullPlayer
    ∧ processClientSignup (sampleEnv noPassword) cleanIndexServer alice
        (signupPacket [.bool true, .string "Alice", .string "avatar1"])
      = .ok (detachMessageHook cleanIndexServer alice) [.reconnect 0 "sgs1" alice] := by
  constructor <;> decide

/-- C5, evaluated at a failing input. With the duplicate-IP policy on and the address
10.0.0.9 on the ban list, one accept event from that address leaves the address in the
Address Set although the session was closed: the set has one element and no session is open. -/
theorem banned_address_stays_registered :
    "10.0.0.9" ∈ (gatewayRun (sampleEnv noPassword) ⟨emptyServer .RoomRole, []⟩
        [.accept mallory]).server.addresses
    ∧ (gatewayRun (sampleEnv noPassword) ⟨emptyServer .RoomRole, []⟩ [.accept mallory]).live = []
    ∧ (gatewayRun (sampleEnv noPassword) ⟨emptyServer .RoomRole, []⟩
        [.accept mallory]).server.addresses.length = 1
    ∧ (processNewConnection (sampleEnv noPassword) (emptyServer .RoomRole) mallory).2
        = [.disconnectFromHost mallory, .serverMessage (.forbidAddress "10.0.0.9")]
    ∧ (gatewayRun (sampleEnv noPassword) ⟨emptyServer .RoomRole, []⟩
        [.accept mallory]).server.disconnected = [] := by
  refine ⟨?_, ?_, ?_, ?_, ?_⟩ <;> decide

/-- A well-formed signup that is not a reconnection, or whose reconnection loop runs to its end
without a match, is a fresh signup on the state with the message hook detached. -/
theorem processClientSignup_eq_freshSignup (E : Env) (s : Server) (socket : Socket)
    (signup : Packet)
    (hcmd : signup.command = .S_COMMAND_SIGNUP)
    (hlen : 3 ≤ signup.body.toJsonArray.length)
    (hname : (signup.body.toJsonArray.getD 1 .invalid).toString ≠ "")
    (havatar : (signup.body.toJsonArray.getD 2 .invalid).toString ≠ "")
    (hfresh : (signup.body.toJsonArray.getD 0 .invalid).toBool = false
      ∨ findReconnection (detachMessageHook s socket)
          (multiValues (detachMessageHook s socket).name2objname
            (signup.body.toJsonArray.getD 1 .invalid).toString) = .ok none) :
    processClientSignup E s socket signup
      = freshSignup E (detachMessageHook s socket) socket signup.body.toJsonArray
          (signup.body.toJsonArray.getD 1 .invalid).toString
          (signup.body.toJsonArray.getD 2 .invalid).toString := by
  unfold processClientSignup
  simp only [hcmd, ne_eq, not_true_eq_false, if_false, Nat.not_lt.mpr hlen, hname, havatar,
    or_self]
  rcases hfresh with h | h
  · simp only [h, Bool.false_eq_true, if_false]
  · by_cases hb : (signup.body.toJsonArray.getD 0 .invalid).toBool = true
    · simp only [hb, if_true, h]
    · simp only [hb, Bool.false_eq_true, if_false]

/-- Room selection when the current room exists and is neither full nor finished: it is kept
and nothing is created. -/
theorem selectOrCreateRoom_open (E : Env) (s : Server) (hopen : currentOpen s = true) :
    ∃ cur r, s.current = some cur ∧ s.roomHeap[cur]? = some r ∧ r.isFull = false
      ∧ r.isFinished = false ∧ selectOrCreateRoom E s = .ok (s, cur, []) := by
  unfold currentOpen at hopen
  cases hc : s.current with
  | none => simp [hc] at hopen
  | some cur =>
      simp only [hc] at hopen
      cases hr : s.roomHeap[cur]? with
      | none => simp [hr] at hopen
      | some r =>
          simp only [hr, Bool.and_eq_true, Bool.not_eq_true_eq_eq_false] at hopen
          exact ⟨cur, r, rfl, hr.symm ▸ rfl, hopen.1, hopen.2,
            by simp [selectOrCreateRoom, hc, hr, hopen.1, hopen.2]⟩

/-- Room selection when there is no current room, or it is full, or it is finished: one empty
room is created after the existing ones and becomes current. -/
theorem selectOrCreateRoom_closed (E : Env) (s : Server) (hvalid : currentValid s)
    (hclosed : currentOpen s = false) :
    selectOrCreateRoom E s
      = .ok ({ s with
               current := some s.roomHeap.length,
               roomHeap := s.roomHeap
                 ++ [{ capacity := E.Config.PlayerCount, members := [], finished := false }],
               rooms := s.rooms ++ [s.roomHeap.length] },
             s.roomHeap.length, [.createNewRoom s.roomHeap.length]) := by
  unfold currentOpen at hclosed
  cases hc : s.current with
  | none => simp [selectOrCreateRoom, hc, createNewRoom]
  | some cur =>
      simp only [hc] at hclosed
      have hlt : cur < s.roomHeap.length := hvalid cur hc
      cases hr : s.roomHeap[cur]? with
      | none =>
          exact absurd hlt (Nat.not_lt.mpr (List.getElem?_eq_none_iff.1 hr))
      | some r =>
          simp only [hr] at hclosed
          have hb : (r.isFull = true ∨ r.isFinished = true) := by
            cases hf : r.isFull <;> cases hg : r.isFinished <;> simp [hf, hg] at hclosed ⊢
          simp [selectOrCreateRoom, hc, hr, hb, createNewRoom]

/-- The guarded region when the current room exists and is neither full nor finished: the
session joins it, no room is created. -/
theorem currentRoomSection_open (E : Env) (s : Server) (socket : Socket)
    (screen_name avatar : String) (hopen : currentOpen s = true) :
    ∃ cur r, s.current = some cur ∧ s.roomHeap[cur]? = some r ∧ r.isFull = false
      ∧ r.isFinished = false
      ∧ currentRoomSection E s socket screen_name avatar
        = .ok { s with roomHeap := s.roomHeap.set cur { r with members := r.members ++ [socket] } }
            [.addSocket cur socket,
             .signup cur { room := cur, slot := r.members.length } screen_name avatar false,
             .newPlayer { room := cur, slot := r.members.length }] := by
  obtain ⟨cur, r, hc, hr, hfull, hfin, hsel⟩ := selectOrCreateRoom_open E s hopen
  refine ⟨cur, r, hc, hr, hfull, hfin, ?_⟩
  simp [currentRoomSection, hsel, addSocket, hr]

/-- The guarded region when there is no current room, or it is full, or it is finished: one
room is created after the existing ones, becomes current and gets the session. -/
theorem currentRoomSection_closed (E : Env) (s : Server) (socket : Socket)
    (screen_name avatar : String) (hvalid : currentValid s) (hclosed : currentOpen s = false) :
    currentRoomSection E s socket screen_name avatar
      = .ok { s with
              current := some s.roomHeap.length,
              roomHeap := s.roomHeap
                ++ [{ capacity := E.Config.PlayerCount, members := [socket], finished := false }],
              rooms := s.rooms ++ [s.roomHeap.length] }
          [.createNewRoom s.roomHeap.length,
           .addSocket s.roomHeap.length socket,
           .signup s.roomHeap.length { room := s.roomHeap.length, slot := 0 } screen_name avatar
             false,
           .newPlayer { room := s.roomHeap.length, slot := 0 }] := by
  simp [currentRoomSection, selectOrCreateRoom_closed E s hvalid hclosed, addSocket]

/-- In room-server mode a fresh signup that passes the password check is the guarded region. -/
theorem freshSignup_room_pass (E : Env) (s : Server) (socket : Socket) (body : JsonArray)
    (screen_name avatar : String) (hrole : s.role = .RoomRole)
    (hpass : E.Config.RoomPassword = "" ∨ suppliedPassword body = E.Config.RoomPassword) :
    freshSignup E s socket body screen_name avatar
      = currentRoomSection E s socket screen_name avatar := by
  unfold freshSignup
  have h : ¬ (E.Config.RoomPassword ≠ "" ∧ suppliedPassword body ≠ E.Config.RoomPassword) := by
    rintro ⟨h1, h2⟩
    rcases hpass with h | h
    · exact h1 h
    · exact h2 h
  simp only [hrole, if_true]
  exact if_neg h

/-- In room-server mode a fresh signup that fails the password check only warns the client. -/
theorem freshSignup_room_fail (E : Env) (s : Server) (socket : Socket) (body : JsonArray)
    (screen_name avatar : String) (hrole : s.role = .RoomRole)
    (hfail : ¬ (E.Config.RoomPassword = "" ∨ suppliedPassword body = E.Config.RoomPassword)) :
    freshSignup E s socket body screen_name avatar
      = .ok s [notifyClient E socket .S_COMMAND_WARN E.S_WARNING_WRONG_PASSWORD] := by
  unfold freshSignup
  have h : E.Config.RoomPassword ≠ "" ∧ suppliedPassword body ≠ E.Config.RoomPassword :=
    ⟨fun h => hfail (Or.inl h), fun h => hfail (Or.inr h)⟩
  simp only [hrole, if_true]
  exact if_pos h

/-- C1: room selection of a fresh room-mode signup that passes the password check, on a state
whose current-room pointer is null or designates a room. The signup succeeds; `addSocket` and
`signup` are each called exactly once, on the room that is current afterwards, and the session
is a member of that room. That room is the room that was current before if and only if a
current room existed and was neither full nor finished, and then no room is created; in every
other case exactly one room is created, it is a new room, it becomes current and it is the one
the player is added to. -/
theorem processClientSignup_room_selection (E : Env) (s : Server) (socket : Socket)
    (signup : Packet)
    (hcmd : signup.command = .S_COMMAND_SIGNUP)
    (hlen : 3 ≤ signup.body.toJsonArray.length)
    (hname : (signup.body.toJsonArray.getD 1 .invalid).toString ≠ "")
    (havatar : (signup.body.toJsonArray.getD 2 .invalid).toString ≠ "")
    (hfresh : (signup.body.toJsonArray.getD 0 .invalid).toBool = false
      ∨ findReconnection (detachMessageHook s socket)
          (multiValues (detachMessageHook s socket).name2objname
            (signup.body.toJsonArray.getD 1 .invalid).toString) = .ok none)
    (hrole : s.role = .RoomRole)
    (hpass : E.Config.RoomPassword = ""
      ∨ suppliedPassword signup.body.toJsonArray = E.Config.RoomPassword)
    (hvalid : currentValid s) :
    ∃ s' room effects,
      processClientSignup E s socket signup = .ok s' effects
      ∧ s'.current = some room
      ∧ addSocketRooms effects = [room]
      ∧ signupRooms effects = [room]
      ∧ (∃ r, s'.roomHeap[room]? = some r ∧ socket ∈ r.members)
      ∧ (s.current = some room ↔ currentOpen s = true)
      ∧ (currentOpen s = true →
          roomsCreated effects = 0 ∧ s'.roomHeap.length = s.roomHeap.length ∧ s'.rooms = s.rooms)
      ∧ (currentOpen s = false →
          roomsCreated effects = 1 ∧ Effect.createNewRoom room ∈ effects
          ∧ room = s.roomHeap.length ∧ s'.roomHeap.length = s.roomHeap.length + 1
          ∧ s'.rooms = s.rooms ++ [room]) := by
  rw [processClientSignup_eq_freshSignup E s socket signup hcmd hlen hname havatar hfresh,
    freshSignup_room_pass E (detachMessageHook s socket) socket _ _ _ hrole hpass]
  have hvalid0 : currentValid (detachMessageHook s socket) := hvalid
  have hopen0 : currentOpen (detachMessageHook s socket) = currentOpen s := rfl
  cases hopen : currentOpen s with
  | true =>
      obtain ⟨cur, r, hc, hr, _, _, hsec⟩ :=
        currentRoomSection_open E (detachMessageHook s socket) socket
          (signup.body.toJsonArray.getD 1 .invalid).toString
          (signup.body.toJsonArray.getD 2 .invalid).toString (hopen0.trans hopen)
      have hc1 : s.current = some cur := hc
      have hr1 : s.roomHeap[cur]? = some r := hr
      have hlt : cur < s.roomHeap.length := hvalid cur hc1
      refine ⟨_, cur, _, hsec, hc, rfl, rfl, ?_, ?_, ?_, ?_⟩
      · refine ⟨{ r with members := r.members ++ [socket] }, ?_, by simp⟩
        show (s.roomHeap.set cur _)[cur]? = _
        simp [List.getElem?_set, hlt]
      · simp [hc1]
      · intro _
        refine ⟨rfl, ?_, rfl⟩
        show (s.roomHeap.set cur _).length = _
        simp
      · intro h; cases h
  | false =>
      have hsec := currentRoomSection_closed E (detachMessageHook s socket) socket
          (signup.body.toJsonArray.getD 1 .invalid).toString
          (signup.body.toJsonArray.getD 2 .invalid).toString hvalid0 (hopen0.trans hopen)
      refine ⟨_, s.roomHeap.length, _, hsec, rfl, rfl, rfl, ?_, ?_, ?_, ?_⟩
      · refine ⟨{ capacity := E.Config.PlayerCount, members := [socket], finished := false },
          ?_, by simp⟩
        show (s.roomHeap ++ [_])[s.roomHeap.length]? = _
        simp
      · constructor
        · intro h
          exact absurd (hvalid _ h) (Nat.lt_irrefl _)
        · intro h; cases h
      · intro h; cases h
      · intro _
        refine ⟨rfl, List.mem_cons_self _ _, rfl, ?_, rfl⟩
        show (s.roomHeap ++ [_]).length = _
        simp

/-- Witness of C1: Alice signs up on a room server whose current room 0 is full; room 1 is
created and she is its first member. -/
theorem processClientSignup_room_selection_witness :
    ∃ s' room effects,
      processClientSignup (sampleEnv noPassword) cleanIndexServer alice
          (signupPacket [.bool false, .string "Alice", .string "avatar1"]) = .ok s' effects
      ∧ s'.current = some room
      ∧ addSocketRooms effects = [room]
      ∧ signupRooms effects = [room]
      ∧ (∃ r, s'.roomHeap[room]? = some r ∧ alice ∈ r.members)
      ∧ (cleanIndexServer.current = some room ↔ currentOpen cleanIndexServer = true)
      ∧ (currentOpen cleanIndexServer = true →
          roomsCreated effects = 0 ∧ s'.roomHeap.length = cleanIndexServer.roomHeap.length
          ∧ s'.rooms = cleanIndexServer.rooms)
      ∧ (currentOpen cleanIndexServer = false →
          roomsCreated effects = 1 ∧ Effect.createNewRoom room ∈ effects
          ∧ room = cleanIndexServer.roomHeap.length
          ∧ s'.roomHeap.length = cleanIndexServer.roomHeap.length + 1
          ∧ s'.rooms = cleanIndexServer.rooms ++ [room]) :=
  processClientSignup_room_selection (sampleEnv noPassword) cleanIndexServer alice
    (signupPacket [.bool false, .string "Alice", .string "avatar1"])
    rfl (by decide) (by decide) (by decide) (Or.inl rfl) rfl (Or.inl rfl)
    (by intro cur h; cases h; decide)

/-- The guarded region, on a state whose current-room pointer is null or designates a room,
succeeds with exactly one `addSocket` call, made for the session on the room that is current
afterwards, and exactly one `newPlayer` signal; it sends nothing and closes no session. -/
theorem currentRoomSection_joins (E : Env) (s : Server) (socket : Socket)
    (screen_name avatar : String) (hvalid : currentValid s) :
    ∃ s1 effects room, currentRoomSection E s socket screen_name avatar = .ok s1 effects
      ∧ playersCreated effects = 1 ∧ newPlayerEvents effects = 1 ∧ sessionsClosed effects = 0
      ∧ sendTargets effects = []
      ∧ Effect.addSocket room socket ∈ effects ∧ s1.current = some room := by
  cases hopen : currentOpen s with
  | true =>
      obtain ⟨cur, r, hc, _, _, _, hsec⟩ :=
        currentRoomSection_open E s socket screen_name avatar hopen
      exact ⟨_, _, cur, hsec, rfl, rfl, rfl, rfl, List.mem_cons_self _ _, hc⟩
  | false =>
      exact ⟨_, _, s.roomHeap.length,
        currentRoomSection_closed E s socket screen_name avatar hvalid hopen,
        rfl, rfl, rfl, rfl, List.mem_cons_of_mem _ (List.mem_cons_self _ _), rfl⟩

/-- Line 228 reads the 4th body field through `toString()`, and the empty string when the body
has no 4th field. -/
theorem suppliedPassword_eq (body : JsonArray) :
    suppliedPassword body = (body[3]?.map QVariant.toString).getD "" := by
  unfold suppliedPassword
  by_cases h : body.length < 4
  · have hnone : body[3]? = none := List.getElem?_eq_none_iff.2 (by omega)
    simp [h, hnone]
  · have hlt : 3 < body.length := by omega
    have hsome : body[3]? = some body[3] := List.getElem?_eq_getElem hlt
    simp [h, List.getD_eq_getElem?_getD, hsome]

/-- C4: password gate of a fresh room-mode signup (well-formed packet; not a reconnection, or
the reconnection lookup comes back without a match), on a state whose current-room pointer is
null or designates a room. The supplied password is the 4th body field read as a string, the
empty string when the body has no 4th field. A player is created if and only if no room
password is configured or the supplied password equals it. When the check passes exactly one
player is created, for this session and in the room that is current afterwards, exactly one
`newPlayer` signal is emitted, nothing is sent to the client and no session is closed. When it
fails the only effect is one packet sent to the client, a lobby notification with command WARN
whose body is the wrong-password code: no player, no room, no `newPlayer` signal, no
`disconnectFromHost`, and apart from the detached message hook the state is unchanged. -/
theorem processClientSignup_password_gate (E : Env) (s : Server) (socket : Socket)
    (signup : Packet)
    (hcmd : signup.command = .S_COMMAND_SIGNUP)
    (hlen : 3 ≤ signup.body.toJsonArray.length)
    (hname : (signup.body.toJsonArray.getD 1 .invalid).toString ≠ "")
    (havatar : (signup.body.toJsonArray.getD 2 .invalid).toString ≠ "")
    (hfresh : (signup.body.toJsonArray.getD 0 .invalid).toBool = false
      ∨ findReconnection (detachMessageHook s socket)
          (multiValues (detachMessageHook s socket).name2objname
            (signup.body.toJsonArray.getD 1 .invalid).toString) = .ok none)
    (hrole : s.role = .RoomRole)
    (hvalid : currentValid s) :
    ∃ s1 effects,
      processClientSignup E s socket signup = .ok s1 effects
      ∧ (0 < playersCreated effects ↔
          (E.Config.RoomPassword = ""
            ∨ ((signup.body.toJsonArray)[3]?.map QVariant.toString).getD ""
                = E.Config.RoomPassword))
      ∧ ((E.Config.RoomPassword = ""
            ∨ ((signup.body.toJsonArray)[3]?.map QVariant.toString).getD ""
                = E.Config.RoomPassword) →
          playersCreated effects = 1 ∧ newPlayerEvents effects = 1
          ∧ sessionsClosed effects = 0 ∧ sendTargets effects = []
          ∧ ∃ room, Effect.addSocket room socket ∈ effects ∧ s1.current = some room)
      ∧ (¬ (E.Config.RoomPassword = ""
            ∨ ((signup.body.toJsonArray)[3]?.map QVariant.toString).getD ""
                = E.Config.RoomPassword) →
          effects = [Effect.send socket
              { source := .S_SRC_LOBBY, type := .S_TYPE_NOTIFICATION,
                destination := E.S_DEST_CLIENT, command := .S_COMMAND_WARN,
                body := .value E.S_WARNING_WRONG_PASSWORD }]
          ∧ s1 = { s with messageGot := s.messageGot.filter (fun x => x ≠ socket) }
          ∧ playersCreated effects = 0 ∧ roomsCreated effects = 0
          ∧ newPlayerEvents effects = 0 ∧ sessionsClosed effects = 0
          ∧ s1.current = s.current ∧ s1.roomHeap = s.roomHeap ∧ s1.rooms = s.rooms
          ∧ s1.players = s.players ∧ s1.name2objname = s.name2objname) := by
  rw [processClientSignup_eq_freshSignup E s socket signup hcmd hlen hname havatar hfresh]
  rw [← suppliedPassword_eq signup.body.toJsonArray]
  by_cases hpass : E.Config.RoomPassword = ""
      ∨ suppliedPassword signup.body.toJsonArray = E.Config.RoomPassword
  · rw [freshSignup_room_pass E (detachMessageHook s socket) socket _ _ _ hrole hpass]
    obtain ⟨s1, effects, room, hsec, hp, hn, hclosed, hsend, hmem, hcur⟩ :=
      currentRoomSection_joins E (detachMessageHook s socket) socket
        (signup.body.toJsonArray.getD 1 .invalid).toString
        (signup.body.toJsonArray.getD 2 .invalid).toString hvalid
    refine ⟨s1, effects, hsec, ?_, fun _ => ⟨hp, hn, hclosed, hsend, room, hmem, hcur⟩,
      fun h => absurd hpass h⟩
    rw [hp]
    exact ⟨fun _ => hpass, fun _ => Nat.one_pos⟩
  · rw [freshSignup_room_fail E (detachMessageHook s socket) socket _ _ _ hrole hpass]
    refine ⟨_, _, rfl, ?_, fun h => absurd h hpass, fun _ => ?_⟩
    · constructor
      · intro h
        exact absurd h (by simp [playersCreated, notifyClient])
      · intro h
        exact absurd h hpass
    · exact ⟨rfl, rfl, rfl, rfl, rfl, rfl, rfl, rfl, rfl, rfl, rfl⟩

/-- Witness of C4, on a room server whose password is `secret`: the body
`[false, "Alice", "avatar1", "wrongpw"]` only draws the WARN packet with the wrong-password
code; the body `[false, "Alice", "avatar1", "secret"]` creates one player for the session and
emits one `newPlayer` signal. On a room server without password the body
`[false, "Alice", "avatar1"]` does the same. -/
theorem processClientSignup_password_gate_witness :
    (∃ s1 effects,
      processClientSignup (sampleEnv withPassword) (emptyServer .RoomRole) alice
          (signupPacket [.bool false, .string "Alice", .string "avatar1", .string "wrongpw"])
        = .ok s1 effects
      ∧ effects = [Effect.send alice
          { source := .S_SRC_LOBBY, type := .S_TYPE_NOTIFICATION, destination := 0x400,
            command := .S_COMMAND_WARN, body := .value (.string "WRONG_PASSWORD") }]
      ∧ playersCreated effects = 0)
    ∧ (∃ s1 effects,
      processClientSignup (sampleEnv withPassword) (emptyServer .RoomRole) alice
          (signupPacket [.bool false, .string "Alice", .string "avatar1", .string "secret"])
        = .ok s1 effects
      ∧ playersCreated effects = 1 ∧ newPlayerEvents effects = 1
      ∧ ∃ room, Effect.addSocket room alice ∈ effects ∧ s1.current = some room)
    ∧ (∃ s1 effects,
      processClientSignup (sampleEnv noPassword) (emptyServer .RoomRole) alice
          (signupPacket [.bool false, .string "Alice", .string "avatar1"])
        = .ok s1 effects
      ∧ playersCreated effects = 1 ∧ newPlayerEvents effects = 1) := by
  refine ⟨?_, ?_, ?_⟩
  · obtain ⟨s1, effects, hres, _, _, hfail⟩ :=
      processClientSignup_password_gate (sampleEnv withPassword) (emptyServer .RoomRole) alice
        (signupPacket [.bool false, .string "Alice", .string "avatar1", .string "wrongpw"])
        rfl (by decide) (by decide) (by decide) (Or.inl rfl) rfl (by intro cur h; cases h)
    have h := hfail (by decide)
    exact ⟨s1, effects, hres, h.1, h.2.2.1⟩
  · obtain ⟨s1, effects, hres, _, hpass, _⟩ :=
      processClientSignup_password_gate (sampleEnv withPassword) (emptyServer .RoomRole) alice
        (signupPacket [.bool false, .string "Alice", .string "avatar1", .string "secret"])
        rfl (by decide) (by decide) (by decide) (Or.inl rfl) rfl (by intro cur h; cases h)
    have h := hpass (Or.inr (by decide))
    exact ⟨s1, effects, hres, h.1, h.2.1, h.2.2.2.2⟩
  · obtain ⟨s1, effects, hres, _, hpass, _⟩ :=
      processClientSignup_password_gate (sampleEnv noPassword) (emptyServer .RoomRole) alice
        (signupPacket [.bool false, .string "Alice", .string "avatar1"])
        rfl (by decide) (by decide) (by decide) (Or.inl rfl) rfl (by intro cur h; cases h)
    have h := hpass (Or.inl rfl)
    exact ⟨s1, effects, hres, h.1, h.2.1⟩

/-- One guarded region run from a state satisfying the race invariant keeps the invariant: it
creates a room exactly when the current room is full, the session becomes a member of a room
created during the race, members are never removed and older rooms are untouched. -/
theorem currentRoomSection_race_step (E : Env) (base : Nat) (s : Server) (m : Nat)
    (socket : Socket) (screen_name avatar : String) (hcap : 1 ≤ E.Config.PlayerCount)
    (hinv : RaceInvariant E base s m) :
    ∃ s1 effects m1,
      currentRoomSection E s socket screen_name avatar = .ok s1 effects
      ∧ RaceInvariant E base s1 m1
      ∧ roomsCreated effects = (if m = E.Config.PlayerCount then 1 else 0)
      ∧ m1 = (if m = E.Config.PlayerCount then 1 else m + 1)
      ∧ (∃ (room : Nat) (r : Room), base ≤ room ∧ s1.roomHeap[room]? = some r ∧ socket ∈ r.members)
      ∧ (∀ (room : Nat) (r : Room), s.roomHeap[room]? = some r →
          ∃ r1 : Room, s1.roomHeap[room]? = some r1 ∧ ∀ x ∈ r.members, x ∈ r1.members)
      ∧ (∀ room, room < base → s1.roomHeap[room]? = s.roomHeap[room]?)
      ∧ s1.roomHeap.length = s.roomHeap.length + roomsCreated effects := by
  obtain ⟨cur, r, hc, hbase, hr, hrcap, hrfin, hrlen, hm1, hmcap, hbound⟩ := hinv
  have hlt : (cur : Nat) < s.roomHeap.length := (List.getElem?_eq_some_iff.1 hr).1
  have hbase : base ≤ (cur : Nat) := hbase
  have hvalid : currentValid s := by
    intro c h
    rw [hc] at h
    injection h with h
    exact h ▸ hlt
  by_cases hfull : m = E.Config.PlayerCount
  · -- the current room is full: a room is created
    have hclosed : currentOpen s = false := by
      simp [currentOpen, hc, hr, Room.isFull, hrcap, hrlen, hfull]
    refine ⟨_, _, 1, currentRoomSection_closed E s socket screen_name avatar hvalid hclosed,
      ?_, ?_, ?_, ?_, ?_, ?_, ?_⟩
    · refine ⟨s.roomHeap.length, ⟨E.Config.PlayerCount, [socket], false⟩, rfl,
        Nat.le_trans hbase (Nat.le_of_lt hlt), ?_, rfl, rfl,
        rfl, Nat.le_refl 1, hcap, ?_⟩
      · show (s.roomHeap ++ [_])[s.roomHeap.length]? = _
        simp
      · intro room r' hroom hget
        have hget' : (s.roomHeap ++ [(⟨E.Config.PlayerCount, [socket], false⟩ : Room)])[room]? = some r' := hget
        by_cases hlt' : room < s.roomHeap.length
        · rw [List.getElem?_append_left hlt'] at hget'
          exact hbound room r' hroom hget'
        · rw [List.getElem?_append_right (Nat.not_lt.1 hlt')] at hget'
          have hidx : room - s.roomHeap.length = 0 := by
            by_contra hne
            have : 1 ≤ room - s.roomHeap.length := Nat.one_le_iff_ne_zero.2 hne
            have hnone : ([(⟨E.Config.PlayerCount, [socket], false⟩ : Room)])[room - s.roomHeap.length]? = none :=
              List.getElem?_eq_none_iff.2 (by simpa using this)
            rw [hnone] at hget'
            cases hget'
          rw [hidx] at hget'
          simp at hget'
          rw [← hget']
          simpa using hcap
    · rw [if_pos hfull]; rfl
    · rw [if_pos hfull]
    · refine ⟨s.roomHeap.length, ⟨E.Config.PlayerCount, [socket], false⟩,
        Nat.le_trans hbase (Nat.le_of_lt hlt), ?_, ?_⟩
      · show (s.roomHeap ++ [(⟨E.Config.PlayerCount, [socket], false⟩ : Room)])[s.roomHeap.length]? = _
        simp
      · simp
    · intro room r' hget
      refine ⟨r', ?_, fun x hx => hx⟩
      have hlt' : room < s.roomHeap.length := (List.getElem?_eq_some_iff.1 hget).1
      show (s.roomHeap ++ [_])[room]? = _
      rw [List.getElem?_append_left hlt']
      exact hget
    · intro room hroom
      have hlt' : room < s.roomHeap.length :=
        Nat.lt_of_lt_of_le hroom (Nat.le_trans hbase (Nat.le_of_lt hlt))
      show (s.roomHeap ++ [_])[room]? = _
      exact List.getElem?_append_left hlt'
    · show (s.roomHeap ++ [_]).length = _ + 1
      simp
  · -- the current room has a free place: the session joins it
    have hopen : currentOpen s = true := by
      have : ¬ E.Config.PlayerCount ≤ m := by omega
      simp [currentOpen, hc, hr, Room.isFull, Room.isFinished, hrcap, hrlen, hrfin, this]
    obtain ⟨cur', r', hc', hr', _, _, hsec⟩ :=
      currentRoomSection_open E s socket screen_name avatar hopen
    have hcur : cur' = cur := by
      rw [hc] at hc'
      injection hc' with h
      exact h.symm
    subst hcur
    have hreq : r' = r := by
      rw [hr] at hr'
      injection hr' with h
      exact h.symm
    subst hreq
    refine ⟨_, _, m + 1, hsec, ?_, ?_, ?_, ?_, ?_, ?_, ?_⟩
    · refine ⟨cur', { r' with members := r'.members ++ [socket] }, hc, hbase, ?_, hrcap, hrfin,
        by simp [hrlen], by omega, by omega, ?_⟩
      · show (s.roomHeap.set cur' _)[cur']? = _
        exact List.getElem?_set_self hlt
      · intro room r2 hroom hget
        have hget' : (s.roomHeap.set cur' { r' with members := r'.members ++ [socket] })[room]?
            = some r2 := hget
        by_cases heq : cur' = room
        · subst heq
          rw [List.getElem?_set_self hlt] at hget'
          injection hget' with hget'
          subst hget'
          simp only [List.length_append, List.length_singleton, hrlen, hrcap]
          omega
        · rw [List.getElem?_set_ne heq] at hget'
          exact hbound room r2 hroom hget'
    · rw [if_neg hfull]; rfl
    · rw [if_neg hfull]
    · refine ⟨cur', { r' with members := r'.members ++ [socket] }, hbase, ?_, by simp⟩
      show (s.roomHeap.set cur' _)[cur']? = _
      exact List.getElem?_set_self hlt
    · intro room r2 hget
      by_cases heq : cur' = room
      · subst heq
        rw [hr] at hget
        injection hget with hget
        subst hget
        refine ⟨{ r' with members := r'.members ++ [socket] }, ?_, ?_⟩
        · show (s.roomHeap.set cur' _)[cur']? = _
          exact List.getElem?_set_self hlt
        · intro x hx
          exact List.mem_append_left _ hx
      · refine ⟨r2, ?_, fun x hx => hx⟩
        show (s.roomHeap.set cur' _)[room]? = _
        rw [List.getElem?_set_ne heq]
        exact hget
    · intro room hroom
      have hne : cur' ≠ room := fun h => absurd (h ▸ hbase) (Nat.not_le.2 hroom)
      show (s.roomHeap.set cur' _)[room]? = _
      exact List.getElem?_set_ne hne
    · show (s.roomHeap.set cur' _).length = _ + 0
      simp

/-- The first guarded region of a race that starts without a current room creates the first
room of the race and establishes the race invariant with one member. -/
theorem currentRoomSection_race_first (E : Env) (s : Server) (socket : Socket)
    (screen_name avatar : String) (hcap : 1 ≤ E.Config.PlayerCount) (hnone : s.current = none) :
    ∃ s1 effects,
      currentRoomSection E s socket screen_name avatar = .ok s1 effects
      ∧ RaceInvariant E s.roomHeap.length s1 1
      ∧ roomsCreated effects = 1
      ∧ (∃ (room : Nat) (r : Room), s.roomHeap.length ≤ room ∧ s1.roomHeap[room]? = some r
          ∧ socket ∈ r.members)
      ∧ (∀ room, room < s.roomHeap.length → s1.roomHeap[room]? = s.roomHeap[room]?)
      ∧ s1.roomHeap.length = s.roomHeap.length + 1 := by
  have hvalid : currentValid s := by
    intro c h
    rw [hnone] at h
    cases h
  have hclosed : currentOpen s = false := by simp [currentOpen, hnone]
  have hnew : (s.roomHeap ++ [(⟨E.Config.PlayerCount, [socket], false⟩ : Room)])[s.roomHeap.length]?
      = some ⟨E.Config.PlayerCount, [socket], false⟩ := by simp
  refine ⟨_, _, currentRoomSection_closed E s socket screen_name avatar hvalid hclosed,
    ?_, rfl, ?_, ?_, ?_⟩
  · refine ⟨s.roomHeap.length, ⟨E.Config.PlayerCount, [socket], false⟩, rfl, Nat.le_refl _, hnew,
      rfl, rfl, rfl, Nat.le_refl 1, hcap, ?_⟩
    intro room r' hroom hget
    have hget' : (s.roomHeap ++ [(⟨E.Config.PlayerCount, [socket], false⟩ : Room)])[room]?
        = some r' := hget
    rw [List.getElem?_append_right hroom] at hget'
    have hidx : room - s.roomHeap.length = 0 := by
      by_contra hne
      have : 1 ≤ room - s.roomHeap.length := Nat.one_le_iff_ne_zero.2 hne
      have hnone' : ([(⟨E.Config.PlayerCount, [socket], false⟩ : Room)])[room - s.roomHeap.length]?
          = none := List.getElem?_eq_none_iff.2 (by simpa using this)
      rw [hnone'] at hget'
      cases hget'
    rw [hidx] at hget'
    simp at hget'
    rw [← hget']
    simpa using hcap
  · exact ⟨s.roomHeap.length, ⟨E.Config.PlayerCount, [socket], false⟩, Nat.le_refl _, hnew,
      by simp⟩
  · intro room hroom
    show (s.roomHeap ++ [_])[room]? = _
    exact List.getElem?_append_left hroom
  · show (s.roomHeap ++ [_]).length = _ + 1
    simp

/-- A serialised race that continues from a state satisfying the race invariant succeeds,
keeps the invariant, creates `(n + m - 1) / capacity` rooms for `n` signups when the current
room holds `m` members, and puts every session in a room created during the race. -/
theorem raceSignups_from_invariant (E : Env) (base : Nat) (hcap : 1 ≤ E.Config.PlayerCount) :
    ∀ (attempts : List Attempt) (s : Server) (m : Nat), RaceInvariant E base s m →
      ∃ s1 effects m1,
        raceSignups E s attempts = .ok s1 effects
        ∧ RaceInvariant E base s1 m1
        ∧ roomsCreated effects
            = (attempts.length + m - 1) / E.Config.PlayerCount
        ∧ (∀ a ∈ attempts, ∃ (room : Nat) (r : Room), base ≤ room
            ∧ s1.roomHeap[room]? = some r ∧ a.socket ∈ r.members)
        ∧ (∀ (room : Nat) (r : Room), s.roomHeap[room]? = some r →
            ∃ r1 : Room, s1.roomHeap[room]? = some r1 ∧ ∀ x ∈ r.members, x ∈ r1.members)
        ∧ (∀ room, room < base → s1.roomHeap[room]? = s.roomHeap[room]?)
        ∧ s1.roomHeap.length = s.roomHeap.length + roomsCreated effects := by
  intro attempts
  induction attempts with
  | nil =>
      intro s m hinv
      obtain ⟨cur, r, hc, hbase, hr, hrcap, hrfin, hrlen, hm1, hmcap, hbound⟩ := hinv
      refine ⟨s, [], m, rfl, ⟨cur, r, hc, hbase, hr, hrcap, hrfin, hrlen, hm1, hmcap, hbound⟩,
        ?_, ?_, ?_, fun _ _ => rfl, rfl⟩
      · have : (([] : List Attempt).length + m - 1) / E.Config.PlayerCount = 0 :=
          Nat.div_eq_of_lt (by simp; omega)
        rw [this]; rfl
      · intro a ha; cases ha
      · intro room r' h; exact ⟨r', h, fun x hx => hx⟩
  | cons a rest ih =>
      intro s m hinv
      have hm := hinv
      obtain ⟨_, _, _, _, _, _, _, _, hm1, hmcap, _⟩ := hm
      obtain ⟨s1, e1, m1, hstep, hinv1, hc1, hm1eq, hland1, hmono1, hold1, hlen1⟩ :=
        currentRoomSection_race_step E base s m a.socket a.screen_name a.avatar hcap hinv
      obtain ⟨s2, e2, m2, hrun, hinv2, hc2, hland2, hmono2, hold2, hlen2⟩ := ih s1 m1 hinv1
      refine ⟨s2, e1 ++ e2, m2, ?_, hinv2, ?_, ?_, ?_, ?_, ?_⟩
      · simp [raceSignups, hstep, hrun, Result.prepend]
      · have happ : roomsCreated (e1 ++ e2) = roomsCreated e1 + roomsCreated e2 := by
          simp [roomsCreated, List.countP_append]
        rw [happ, hc1, hc2, hm1eq]
        by_cases hfull : m = E.Config.PlayerCount
        · simp only [hfull, if_true, List.length_cons]
          have h1 : rest.length + 1 - 1 = rest.length := by omega
          have h2 : rest.length + 1 + E.Config.PlayerCount - 1
              = rest.length + E.Config.PlayerCount := by omega
          rw [h1, h2, Nat.add_div_right _ (by omega : 0 < E.Config.PlayerCount)]
          omega
        · simp only [hfull, if_false, List.length_cons]
          have h1 : rest.length + (m + 1) - 1 = rest.length + 1 + m - 1 := by omega
          rw [h1]
          omega
      · intro b hb
        rcases List.mem_cons.1 hb with hb | hb
        · subst hb
          obtain ⟨room, r, hroom, hget, hmem⟩ := hland1
          obtain ⟨r1, hget1, hsub⟩ := hmono2 room r hget
          exact ⟨room, r1, hroom, hget1, hsub _ hmem⟩
        · exact hland2 b hb
      · intro room r hget
        obtain ⟨r1, hget1, hsub1⟩ := hmono1 room r hget
        obtain ⟨r2, hget2, hsub2⟩ := hmono2 room r1 hget1
        exact ⟨r2, hget2, fun x hx => hsub2 x (hsub1 x hx)⟩
      · intro room hroom
        rw [hold2 room hroom, hold1 room hroom]
      · have happ : roomsCreated (e1 ++ e2) = roomsCreated e1 + roomsCreated e2 := by
          simp [roomsCreated, List.countP_append]
        rw [hlen2, hlen1, happ]
        omega

/-- A serialised race that starts without a current room: final-state facts. -/
theorem raceSignups_from_none (E : Env) (s : Server) (attempts : List Attempt)
    (hnone : s.current = none) (hcap : 1 ≤ E.Config.PlayerCount) :
    ∃ s1 effects,
      raceSignups E s attempts = .ok s1 effects
      ∧ roomsCreated effects
          = (attempts.length + E.Config.PlayerCount - 1) / E.Config.PlayerCount
      ∧ (∀ a ∈ attempts, ∃ (room : Nat) (r : Room), s.roomHeap.length ≤ room
          ∧ s1.roomHeap[room]? = some r ∧ a.socket ∈ r.members)
      ∧ (∀ (room : Nat) (r : Room), s.roomHeap.length ≤ room → s1.roomHeap[room]? = some r →
          r.members.length ≤ r.capacity)
      ∧ (∀ room, room < s.roomHeap.length → s1.roomHeap[room]? = s.roomHeap[room]?)
      ∧ s1.roomHeap.length = s.roomHeap.length + roomsCreated effects := by
  cases attempts with
  | nil =>
      refine ⟨s, [], rfl, ?_, ?_, ?_, fun _ _ => rfl, rfl⟩
      · have : (([] : List Attempt).length + E.Config.PlayerCount - 1) / E.Config.PlayerCount = 0 :=
          Nat.div_eq_of_lt (by simp; omega)
        rw [this]; rfl
      · intro a ha; cases ha
      · intro room r hroom hget
        exact absurd (List.getElem?_eq_some_iff.1 hget).1 (Nat.not_lt.2 hroom)
  | cons a rest =>
      obtain ⟨s1, e1, hstep, hinv1, hc1, hland1, hold1, hlen1⟩ :=
        currentRoomSection_race_first E s a.socket a.screen_name a.avatar hcap hnone
      obtain ⟨s2, e2, m2, hrun, hinv2, hc2, hland2, hmono2, hold2, hlen2⟩ :=
        raceSignups_from_invariant E s.roomHeap.length hcap rest s1 1 hinv1
      have happ : roomsCreated (e1 ++ e2) = roomsCreated e1 + roomsCreated e2 := by
        simp [roomsCreated, List.countP_append]
      refine ⟨s2, e1 ++ e2, ?_, ?_, ?_, ?_, ?_, ?_⟩
      · simp [raceSignups, hstep, hrun, Result.prepend]
      · rw [happ, hc1, hc2]
        simp only [List.length_cons]
        have h1 : rest.length + 1 - 1 = rest.length := by omega
        have h2 : rest.length + 1 + E.Config.PlayerCount - 1
            = rest.length + E.Config.PlayerCount := by omega
        rw [h1, h2, Nat.add_div_right _ (by omega : 0 < E.Config.PlayerCount)]
        omega
      · intro b hb
        rcases List.mem_cons.1 hb with hb | hb
        · subst hb
          obtain ⟨room, r, hroom, hget, hmem⟩ := hland1
          obtain ⟨r1, hget1, hsub⟩ := hmono2 room r hget
          exact ⟨room, r1, hroom, hget1, hsub _ hmem⟩
        · exact hland2 b hb
      · obtain ⟨_, _, _, _, _, _, _, _, _, _, hbound⟩ := hinv2
        exact hbound
      · intro room hroom
        rw [hold2 room hroom, hold1 room hroom]
      · rw [hlen2, hlen1, happ, hc1]
        omega

/-- C2 as amended: a serialised race of `n` room-mode signups that starts without a current
room, with a capacity of at least 1. Every signup succeeds and `⌈n / capacity⌉` rooms are
created: exactly one when `1 ≤ n ≤ capacity`, and then every session is a member of that one
room. In general every session is a member of a room created during the race, the rooms that
existed before are untouched, and after every prefix of the race no room created during it
holds more members than its capacity. -/
theorem raceSignups_room_count (E : Env) (s : Server) (attempts : List Attempt)
    (hnone : s.current = none) (hcap : 1 ≤ E.Config.PlayerCount) :
    ∃ s1 effects,
      raceSignups E s attempts = .ok s1 effects
      ∧ roomsCreated effects
          = (attempts.length + E.Config.PlayerCount - 1) / E.Config.PlayerCount
      ∧ (1 ≤ attempts.length → attempts.length ≤ E.Config.PlayerCount →
          roomsCreated effects = 1
          ∧ ∃ r : Room, s1.roomHeap[s.roomHeap.length]? = some r
              ∧ ∀ a ∈ attempts, a.socket ∈ r.members)
      ∧ (∀ a ∈ attempts, ∃ (room : Nat) (r : Room), s.roomHeap.length ≤ room
          ∧ s1.roomHeap[room]? = some r ∧ a.socket ∈ r.members
          ∧ r.members.length ≤ r.capacity)
      ∧ (∀ room, room < s.roomHeap.length → s1.roomHeap[room]? = s.roomHeap[room]?)
      ∧ (∀ k : Nat, ∃ sk ek,
          raceSignups E s (attempts.take k) = .ok sk ek
          ∧ ∀ (room : Nat) (r : Room), s.roomHeap.length ≤ room → sk.roomHeap[room]? = some r →
              r.members.length ≤ r.capacity) := by
  obtain ⟨s1, effects, hrun, hcount, hland, hbound, hold, hlen⟩ :=
    raceSignups_from_none E s attempts hnone hcap
  refine ⟨s1, effects, hrun, hcount, ?_, ?_, hold, ?_⟩
  · intro h1 h2
    have hone : roomsCreated effects = 1 := by
      rw [hcount]
      have h3 : attempts.length + E.Config.PlayerCount - 1
          = (attempts.length - 1) + E.Config.PlayerCount := by omega
      rw [h3, Nat.add_div_right _ (by omega : 0 < E.Config.PlayerCount),
        Nat.div_eq_of_lt (by omega)]
    refine ⟨hone, ?_⟩
    have hlen1 : s1.roomHeap.length = s.roomHeap.length + 1 := by rw [hlen, hone]
    have hsome : ∃ r : Room, s1.roomHeap[s.roomHeap.length]? = some r := by
      have hlt : s.roomHeap.length < s1.roomHeap.length := by omega
      exact ⟨s1.roomHeap[s.roomHeap.length], List.getElem?_eq_getElem hlt⟩
    obtain ⟨r, hr⟩ := hsome
    refine ⟨r, hr, ?_⟩
    intro a ha
    obtain ⟨room, r', hroom, hget, hmem⟩ := hland a ha
    have hlt : room < s1.roomHeap.length := (List.getElem?_eq_some_iff.1 hget).1
    have hroomeq : room = s.roomHeap.length := by omega
    rw [hroomeq, hr] at hget
    injection hget with hget
    rw [hget]
    exact hmem
  · intro a ha
    obtain ⟨room, r, hroom, hget, hmem⟩ := hland a ha
    exact ⟨room, r, hroom, hget, hmem, hbound room r hroom hget⟩
  · intro k
    obtain ⟨sk, ek, hrunk, _, _, hboundk, _, _⟩ :=
      raceSignups_from_none E s (attempts.take k) hnone hcap
    exact ⟨sk, ek, hrunk, hboundk⟩

/-- Witness of C2 as amended: two signups race for rooms of capacity 2 on an empty server;
one room is created. -/
theorem raceSignups_room_count_witness :
    ∃ s1 effects,
      raceSignups (sampleEnv noPassword) (emptyServer .RoomRole)
          [⟨alice, "Alice", "a1"⟩, ⟨bob, "Bob", "a2"⟩] = .ok s1 effects
      ∧ roomsCreated effects = 1 := by
  obtain ⟨s1, effects, hrun, _, hone, _⟩ :=
    raceSignups_room_count (sampleEnv noPassword) (emptyServer .RoomRole)
      [⟨alice, "Alice", "a1"⟩, ⟨bob, "Bob", "a2"⟩] rfl (by decide)
  exact ⟨s1, effects, hrun, (hone (by decide) (by decide)).1⟩

/-- Counterexample to C2 as stated: three signups race for rooms of capacity 2 on a server
without a current room; two rooms are created, not one. -/
theorem raceSignups_three_signups_two_rooms :
    (emptyServer .RoomRole).current = none
    ∧ ∃ s1 effects,
        raceSignups (sampleEnv noPassword) (emptyServer .RoomRole)
            [⟨alice, "Alice", "a1"⟩, ⟨bob, "Bob", "a2"⟩, ⟨carol, "Carol", "a3"⟩]
          = .ok s1 effects
        ∧ roomsCreated effects = 2 ∧ roomsCreated effects ≠ 1 :=
  ⟨rfl, _, _, rfl, by decide, by decide⟩

/-- One gateway event keeps the gateway invariant when the duplicate-IP policy is on and the
event is not the connection of a banned address. -/
theorem gatewayStep_invariant (E : Env) (g : Gateway) (event : GatewayEvent)
    (hpolicy : E.Config.ForbidSIMC = true)
    (hban : ∀ socket, event = .accept socket → socket.peerAddress ∉ E.Config.BannedIp)
    (hinv : GatewayInvariant g) : GatewayInvariant (gatewayStep E g event) := by
  obtain ⟨hhook, haddr, hnodup⟩ := hinv
  cases event with
  | accept socket =>
      have hnb : socket.peerAddress ∉ E.Config.BannedIp := hban socket rfl
      by_cases hdup : socket.peerAddress ∈ g.server.addresses
      · have hstep : gatewayStep E g (.accept socket) = g := by
          simp [gatewayStep, processNewConnection, hpolicy, hdup]
        rw [hstep]
        exact ⟨hhook, haddr, hnodup⟩
      · have hstep : gatewayStep E g (.accept socket)
            = { server := { g.server with
                              addresses := socket.peerAddress :: g.server.addresses,
                              disconnected := socket :: g.server.disconnected,
                              messageGot := socket :: g.server.messageGot },
                live := socket :: g.live } := by
          simp [gatewayStep, processNewConnection, hpolicy, hdup, hnb, setInsert, notifyClient]
        rw [hstep]
        refine ⟨?_, ?_, ?_⟩
        · show socket :: g.server.disconnected = socket :: g.live
          rw [hhook]
        · show socket.peerAddress :: g.server.addresses = _
          rw [haddr]; rfl
        · show (socket.peerAddress :: g.live.map (fun socket => socket.peerAddress)).Nodup
          rw [haddr] at hdup
          exact List.nodup_cons.2 ⟨hdup, hnodup⟩
  | close socket =>
      by_cases hin : socket ∈ g.server.disconnected
      · have hstep : gatewayStep E g (.close socket)
            = { server := { g.server with
                              addresses := setRemove g.server.addresses socket.peerAddress,
                              disconnected := g.server.disconnected.filter (fun x => x ≠ socket),
                              messageGot := g.server.messageGot.filter (fun x => x ≠ socket) },
                live := g.live.filter (fun x => x ≠ socket) } := by
          simp [gatewayStep, cleanup, hpolicy, hin]
        rw [hstep]
        have hlive : socket ∈ g.live := hhook ▸ hin
        have hfilter : ∀ l : List Socket,
            (∀ x ∈ l, x.peerAddress = socket.peerAddress → x = socket) →
            (l.map (fun socket => socket.peerAddress)).filter (fun y => y != socket.peerAddress)
              = (l.filter (fun x => x ≠ socket)).map (fun socket => socket.peerAddress) := by
          intro l
          induction l with
          | nil => intro _; rfl
          | cons x l ih =>
              intro hinj
              have ih' := ih (fun y hy => hinj y (List.mem_cons_of_mem _ hy))
              by_cases hx : x = socket
              · subst hx
                simpa [List.filter_cons] using ih'
              · have hxa : x.peerAddress ≠ socket.peerAddress :=
                  fun h => hx (hinj x (List.mem_cons_self _ _) h)
                simpa [List.filter_cons, hx, hxa] using ih'
        have hinj : ∀ x ∈ g.live, x.peerAddress = socket.peerAddress → x = socket := by
          intro x hx hxa
          exact List.inj_on_of_nodup_map hnodup hx hlive hxa
        refine ⟨?_, ?_, ?_⟩
        · show g.server.disconnected.filter (fun x => x ≠ socket) = _
          rw [hhook]
        · show setRemove g.server.addresses socket.peerAddress = _
          rw [haddr]
          exact hfilter g.live hinj
        · show ((g.live.filter (fun x => x ≠ socket)).map (fun socket => socket.peerAddress)).Nodup
          rw [← hfilter g.live hinj]
          exact hnodup.filter _
      · have hstep : gatewayStep E g (.close socket) = g := by
          simp [gatewayStep, hin]
        rw [hstep]
        exact ⟨hhook, haddr, hnodup⟩

/-- With the duplicate-IP policy on, from an empty Address Set and no session, after any finite
sequence of accept and close events in which no banned address connects, the Address Set
contains an address exactly when an open session from that address exists, and its size is the
number of open sessions. -/
theorem gatewayRun_address_set (E : Env) (role : Role) (events : List GatewayEvent)
    (hpolicy : E.Config.ForbidSIMC = true)
    (hban : ∀ socket, .accept socket ∈ events → socket.peerAddress ∉ E.Config.BannedIp) :
    (∀ address, address ∈ (gatewayRun E ⟨emptyServer role, []⟩ events).server.addresses
        ↔ ∃ socket ∈ (gatewayRun E ⟨emptyServer role, []⟩ events).live,
            socket.peerAddress = address)
    ∧ (gatewayRun E ⟨emptyServer role, []⟩ events).server.addresses.length
        = (gatewayRun E ⟨emptyServer role, []⟩ events).live.length := by
  have hgen : ∀ (events : List GatewayEvent) (g : Gateway),
      (∀ socket, .accept socket ∈ events → socket.peerAddress ∉ E.Config.BannedIp) →
      GatewayInvariant g → GatewayInvariant (gatewayRun E g events) := by
    intro events
    induction events with
    | nil => intro g _ h; exact h
    | cons e rest ih =>
        intro g hb h
        have h1 : GatewayInvariant (gatewayStep E g e) :=
          gatewayStep_invariant E g e hpolicy
            (fun socket he => hb socket (he ▸ List.mem_cons_self _ _)) h
        exact ih (gatewayStep E g e) (fun socket hs => hb socket (List.mem_cons_of_mem _ hs)) h1
  have h0 : GatewayInvariant ⟨emptyServer role, []⟩ := ⟨rfl, rfl, List.nodup_nil⟩
  obtain ⟨_, haddr, _⟩ := hgen events _ hban h0
  constructor
  · intro address
    rw [haddr, List.mem_map]
  · rw [haddr, List.length_map]

/-- On candidates that all have a player with a valid room pointer, the reconnection loop
returns the first candidate that qualifies. -/
theorem findReconnection_eq_firstEligible (s : Server) (candidates : List String)
    (hsound : candidatesSound s candidates) :
    findReconnection s candidates = .ok (firstEligible s candidates) := by
  induction candidates with
  | nil => rfl
  | cons objname rest ih =>
      have hrest : candidatesSound s rest := fun o ho => hsound o (List.mem_cons_of_mem _ ho)
      obtain ⟨player, hp, hroom⟩ := hsound objname (List.mem_cons_self _ _)
      unfold findReconnection firstEligible eligibleRoom
      simp only [hp]
      by_cases hstate : player.state = "offline"
      · simp only [hstate, if_true]
        cases hr : player.room with
        | none => simpa using ih hrest
        | some r =>
            have hlt : (r : Nat) < s.roomHeap.length := hroom r hr
            obtain ⟨roomObj, hget⟩ : ∃ x, s.roomHeap[r]? = some x :=
              ⟨_, List.getElem?_eq_getElem hlt⟩
            cases hfin : roomObj.isFinished with
            | true => simpa [hget, hfin] using ih hrest
            | false => simp [hget, hfin]
      · simp only [hstate, if_false]
        exact ih hrest

/-- Detaching a message hook does not change which candidate qualifies first. -/
theorem firstEligible_detachMessageHook (s : Server) (socket : Socket)
    (candidates : List String) :
    firstEligible (detachMessageHook s socket) candidates = firstEligible s candidates := by
  induction candidates with
  | nil => rfl
  | cons objname rest ih =>
      have h : eligibleRoom (detachMessageHook s socket) objname = eligibleRoom s objname := rfl
      simp only [firstEligible, h, ih]

/-- Reconnection on a sound presence index: a well-formed signup with the reconnection flag
set calls `reconnect` exactly once, for the first candidate that qualifies and on its room,
and does nothing else; when no candidate qualifies it is a fresh signup, as with the flag
unset. -/
theorem processClientSignup_reconnection (E : Env) (s : Server) (socket : Socket)
    (signup : Packet)
    (hcmd : signup.command = .S_COMMAND_SIGNUP)
    (hlen : 3 ≤ signup.body.toJsonArray.length)
    (hname : (signup.body.toJsonArray.getD 1 .invalid).toString ≠ "")
    (havatar : (signup.body.toJsonArray.getD 2 .invalid).toString ≠ "")
    (hflag : (signup.body.toJsonArray.getD 0 .invalid).toBool = true)
    (hsound : candidatesSound s
      (multiValues s.name2objname (signup.body.toJsonArray.getD 1 .invalid).toString)) :
    (∀ room objname,
        firstEligible s
          (multiValues s.name2objname (signup.body.toJsonArray.getD 1 .invalid).toString)
          = some (room, objname) →
        processClientSignup E s socket signup
          = .ok (detachMessageHook s socket) [.reconnect room objname socket])
    ∧ (firstEligible s
          (multiValues s.name2objname (signup.body.toJsonArray.getD 1 .invalid).toString) = none →
        processClientSignup E s socket signup
          = freshSignup E (detachMessageHook s socket) socket signup.body.toJsonArray
              (signup.body.toJsonArray.getD 1 .invalid).toString
              (signup.body.toJsonArray.getD 2 .invalid).toString) := by
  have hloop : findReconnection (detachMessageHook s socket)
      (multiValues (detachMessageHook s socket).name2objname
        (signup.body.toJsonArray.getD 1 .invalid).toString)
      = .ok (firstEligible s
          (multiValues s.name2objname (signup.body.toJsonArray.getD 1 .invalid).toString)) :=
    (findReconnection_eq_firstEligible (detachMessageHook s socket) _ hsound).trans
      (congrArg _ (firstEligible_detachMessageHook s socket _))
  constructor
  · intro room objname hfirst
    unfold processClientSignup
    simp only [hcmd, ne_eq, not_true_eq_false, if_false, Nat.not_lt.mpr hlen, hname, havatar,
      or_self, hflag, if_true, hloop, hfirst]
  · intro hfirst
    exact processClientSignup_eq_freshSignup E s socket signup hcmd hlen hname havatar
      (Or.inr (hloop.trans (congrArg _ hfirst)))

end QSanguosha
